import Mathlib

/-!
Verification development for the visual-soling variable/formula engine.

The definitions below are a shallow embedding of the Python sources
`variable_system.py`, `variable_system_v2.py` and
`visual_solving_advanced_v2.py` (the core engine files).  Python dicts are
modelled as insertion-ordered association lists, Python numbers as `ℤ` and
exact rationals (every numeric value appearing in the verified scenarios is
exactly representable, so rational arithmetic agrees with the source's float
arithmetic there), exceptions as `Except`, and in-place mutation as explicit
state passing.  Python object identity (the `is` operator) is modelled by a
`token : Nat` field that is fresh for every allocation site that matters.
-/

namespace VisualSolving

/-- Insertion-ordered association-list lookup, modelling Python `dict.get` /
`in`.  Returns the value at the first matching key. -/
def lookupA {α : Type} (l : List (String × α)) (k : String) : Option α :=
  match l with
  | [] => none
  | (k', v) :: rest => if k' = k then some v else lookupA rest k

/-- Insertion-ordered association-list update, modelling Python
`d[k] = v`: an existing key keeps its position, a new key is appended. -/
def updateA {α : Type} (l : List (String × α)) (k : String) (v : α) :
    List (String × α) :=
  match l with
  | [] => [(k, v)]
  | (k', v') :: rest =>
      if k' = k then (k, v) :: rest else (k', v') :: updateA rest k v

/-- Add an element to a list when absent, modelling Python `set.add`. -/
def addIfAbsent (l : List String) (x : String) : List String :=
  if l.contains x then l else l ++ [x]

instance {ε α : Type} [DecidableEq ε] [DecidableEq α] :
    DecidableEq (Except ε α)
  | .ok a, .ok b =>
      if h : a = b then isTrue (by rw [h])
      else isFalse (fun hc => by cases hc; exact h rfl)
  | .ok _, .error _ => isFalse (fun hc => by cases hc)
  | .error _, .ok _ => isFalse (fun hc => by cases hc)
  | .error a, .error b =>
      if h : a = b then isTrue (by rw [h])
      else isFalse (fun hc => by cases hc; exact h rfl)

/-- An exact rational number in lowest terms with a positive denominator,
used to model Python floats in the verified scenarios (all of which are
exactly representable).  A dedicated structure over `ℤ` is used so that
every arithmetic step reduces by kernel computation. -/
structure PyQ : Type where
  num : ℤ
  den : ℤ
deriving DecidableEq, Repr

/-- Normalizing constructor: sign moved to the numerator, the fraction
reduced by the gcd.  (`d = 0` never occurs at call sites; it is mapped to
`0/1` for totality.) -/
def PyQ.mk' (n d : ℤ) : PyQ :=
  let s : ℤ := if d < 0 then -1 else 1
  let n := s * n
  let d := s * d
  let g : ℤ := (Int.gcd n d : ℤ)
  if g = 0 then ⟨0, 1⟩ else ⟨n / g, d / g⟩

/-- Embed an integer. -/
def PyQ.ofInt (n : ℤ) : PyQ := ⟨n, 1⟩

instance (n : Nat) : OfNat PyQ n := ⟨PyQ.ofInt n⟩

/-- Rational addition. -/
def PyQ.add (a b : PyQ) : PyQ :=
  PyQ.mk' (a.num * b.den + b.num * a.den) (a.den * b.den)

/-- Rational subtraction. -/
def PyQ.sub (a b : PyQ) : PyQ :=
  PyQ.mk' (a.num * b.den - b.num * a.den) (a.den * b.den)

/-- Rational multiplication. -/
def PyQ.mul (a b : PyQ) : PyQ := PyQ.mk' (a.num * b.num) (a.den * b.den)

/-- Rational division (callers reject a zero divisor first). -/
def PyQ.div (a b : PyQ) : PyQ := PyQ.mk' (a.num * b.den) (a.den * b.num)

/-- Rational negation. -/
def PyQ.neg (a : PyQ) : PyQ := ⟨-a.num, a.den⟩

/-- Rational absolute value. -/
def PyQ.qabs (a : PyQ) : PyQ := ⟨|a.num|, a.den⟩

/-- Strict order (denominators are positive by construction). -/
def PyQ.blt (a b : PyQ) : Bool := a.num * b.den < b.num * a.den

/-- Floor to an integer (`Int.fdiv` is floor division). -/
def PyQ.qfloor (a : PyQ) : ℤ := Int.fdiv a.num a.den

/-- Integer power (negative exponents flip the fraction; callers reject
`0` to a negative power first). -/
def PyQ.zpow (b : PyQ) (k : ℤ) : PyQ :=
  if 0 ≤ k then PyQ.mk' (b.num ^ k.toNat) (b.den ^ k.toNat)
  else PyQ.mk' (b.den ^ (-k).toNat) (b.num ^ (-k).toNat)

/-- A Python value as stored in a variable: `int`, `float`, `str` or `None`.
`float` carries an exact rational; all floats produced in the verified
scenarios are exactly representable. -/
inductive PyVal : Type
  | int (n : ℤ)
  | float (q : PyQ)
  | str (s : String)
  | pynone
deriving DecidableEq, Repr

/-- Python `str()` of a numeric value as used by the reference substitution:
`str(400) = "400"`, `str(1.0) = "1.0"`.  For a float whose denominator is not
1 the source would print a decimal expansion; that case is marked with a `/`
rendering and is never reached in the verified scenarios (all substituted
floats are integral). -/
def pyStrNum : PyVal → String
  | .int n => toString n
  | .float q =>
      if q.den = 1 then toString q.num ++ ".0"
      else toString q.num ++ "/" ++ toString q.den
  | .str s => s
  | .pynone => "None"

/-- `[a-zA-Z_]`, the first character of a regex identifier group. -/
def identStartChar (c : Char) : Bool :=
  (('a' ≤ c && c ≤ 'z') || ('A' ≤ c && c ≤ 'Z') || c = '_')

/-- `[a-zA-Z0-9_]`, a regex identifier character. -/
def identChar (c : Char) : Bool :=
  identStartChar c || ('0' ≤ c && c ≤ '9')

/-- ASCII decimal digit. -/
def isDigitChar (c : Char) : Bool := '0' ≤ c && c ≤ '9'

/-- Python whitespace stripped by `str.strip()` (ASCII part; the verified
inputs contain only ASCII). -/
def isPySpace (c : Char) : Bool :=
  c = ' ' || c = '\t' || c = '\n' || c = '\r' || c = '\x0b' || c = '\x0c'

/-- `str.strip()` on a character list. -/
def pyStrip (cs : List Char) : List Char :=
  ((cs.dropWhile isPySpace).reverse.dropWhile isPySpace).reverse

/-- Greedy match of `[a-zA-Z_][a-zA-Z0-9_]*` at the head of the input;
returns the identifier and the rest.  The character class contains no
backtracking opportunities, so greedy matching is exact. -/
def matchIdent (cs : List Char) : Option (List Char × List Char) :=
  match cs with
  | [] => none
  | c :: _ =>
      if identStartChar c then
        some (cs.takeWhile identChar, cs.dropWhile identChar)
      else none

/-- One scanning step of `re` for the pattern
`([a-zA-Z_][a-zA-Z0-9_]*)\.([a-zA-Z_][a-zA-Z0-9_]*)`
(`ExpressionParser.VARIABLE_REF_PATTERN`): try to match at the current
position, returning the two groups and the rest of the input. -/
def matchRefAt (cs : List Char) : Option (List Char × List Char × List Char) :=
  match matchIdent cs with
  | none => none
  | some (v, rest) =>
      match rest with
      | '.' :: rest2 =>
          match matchIdent rest2 with
          | none => none
          | some (s, rest3) => some (v, s, rest3)
      | _ => none

/-- All non-overlapping occurrences of `variable.solution` in left-to-right
scan order, as produced by `re.findall` / `re.finditer`.  `fuel` bounds the
scan; `scanRefs` below supplies enough fuel for any input. -/
def scanRefsAux : Nat → List Char → List (String × String)
  | 0, _ => []
  | _ + 1, [] => []
  | fuel + 1, c :: rest =>
      match matchRefAt (c :: rest) with
      | some (v, s, rest3) => (String.mk v, String.mk s) :: scanRefsAux fuel rest3
      | none => scanRefsAux fuel rest

/-- Ordered occurrences of `variable.solution` references in a string. -/
def scanRefs (s : String) : List (String × String) :=
  scanRefsAux (s.data.length + 1) s.data

/-- `ExpressionParser.extract_variable_references`: the set of
`"variable.solution"` reference strings of a formula.  The source returns a
Python `set`; it is modelled as the deduplicated list of occurrences. -/
def extract_variable_references (formula : String) : List String :=
  ((scanRefs formula).map (fun p => p.1 ++ "." ++ p.2)).dedup

/-- `ExpressionParser._contains_variable_references`: `re.search` of the
reference pattern. -/
def contains_variable_references (s : String) : Bool :=
  !(scanRefs s).isEmpty

/-- Python `int(text)` on a stripped string: optional sign followed by
decimal digits.  (Underscore digit separators and non-ASCII digits are not
modelled; no verified input uses them.) -/
def pyIntCore (ds : List Char) : Option ℤ :=
  if ds.isEmpty || !ds.all isDigitChar then none
  else some (ds.foldl (fun acc c => acc * 10 + (c.toNat - '0'.toNat : ℤ)) 0)

def pyIntParse (cs : List Char) : Option ℤ :=
  match cs with
  | '-' :: rest => (pyIntCore rest).map (fun n => -n)
  | '+' :: rest => pyIntCore rest
  | _ => pyIntCore cs

/-- Python `float(text)` on a stripped string, basic decimal forms
`[sign] digits [. digits]` and `[sign] . digits`.  (Exponents, `inf`, `nan`
are not modelled; no verified input uses them.) -/
def pyFloatParse (cs : List Char) : Option PyQ :=
  let core : List Char → Option PyQ := fun ds =>
    let intPart := ds.takeWhile isDigitChar
    let rest := ds.dropWhile isDigitChar
    match rest with
    | [] => if intPart.isEmpty then none
            else (pyIntParse intPart).map PyQ.ofInt
    | '.' :: frac =>
        if !frac.all isDigitChar then none
        else if intPart.isEmpty && frac.isEmpty then none
        else
          let ip : ℤ := (pyIntParse intPart).getD 0
          let fv : ℤ := (pyIntParse frac).getD 0
          some (PyQ.mk' (ip * (10 : ℤ) ^ frac.length + fv) ((10 : ℤ) ^ frac.length))
    | _ => none
  match cs with
  | '-' :: rest => (core rest).map PyQ.neg
  | '+' :: rest => core rest
  | _ => core cs

/-- `ExpressionParser._parse_value`: try `int`, then `float`, else keep the
(stripped) string. -/
def parse_value (s : String) : PyVal :=
  let t := pyStrip s.data
  match pyIntParse t with
  | some n => .int n
  | none =>
      match pyFloatParse t with
      | some q => .float q
      | none => .str (String.mk t)

/-- `ExpressionParser._is_valid_alias`: the alias must not contain `@` or
`.`. -/
def is_valid_alias (a : String) : Bool :=
  !(a.data.contains '@') && !(a.data.contains '.')

/-- Errors raised by `parse_expression`, `execute_expression` and
`set_alias` — all `ValueError`s in the source, modelled structurally. -/
inductive ExecErr : Type
  | invalidExpr (s : String)
  | invalidAliasName (a : String)
  | crossSolution (sol : String)
  | variableNotFoundAlias (v : String)
  | cannotExecuteType
  | selfNotRegistered (sol : String)
deriving DecidableEq, Repr

/-- A classified statement (`ExpressionParser.parse_expression` result dict;
the `'type'` key becomes the constructor). -/
inductive ParsedStmt : Type
  | assignment (varName solName : String) (value : PyVal)
  | formula (varName solName formulaText : String) (dependencies : List String)
  | read (target sourceVar sourceSol : String)
  | aliasStmt (aliasName : String) (value : PyVal)
deriving DecidableEq, Repr

/-- Match `ASSIGNMENT_PATTERN`
`^([a-zA-Z_][a-zA-Z0-9_]*)@([a-zA-Z_][a-zA-Z0-9_]*)=(.+)$` on a stripped
string.  After `strip()` a trailing newline cannot occur, so `(.+)$` matches
iff the value part is nonempty and contains no newline. -/
def matchAssignmentPat (cs : List Char) :
    Option (String × String × List Char) :=
  match matchIdent cs with
  | none => none
  | some (v, rest) =>
      match rest with
      | '@' :: rest2 =>
          match matchIdent rest2 with
          | none => none
          | some (s, rest3) =>
              match rest3 with
              | '=' :: value =>
                  if value.isEmpty || value.contains '\n' then none
                  else some (String.mk v, String.mk s, value)
              | _ => none
      | _ => none

/-- Match `READ_PATTERN`
`^([a-zA-Z_][a-zA-Z0-9_]*)=([a-zA-Z_][a-zA-Z0-9_]*)\.([a-zA-Z_][a-zA-Z0-9_]*)$`
on a stripped string.  All groups are maximal-munch with no backtracking
opportunity, so this direct matcher is exact. -/
def matchReadPat (cs : List Char) : Option (String × String × String) :=
  match matchIdent cs with
  | none => none
  | some (t, rest) =>
      match rest with
      | '=' :: rest2 =>
          match matchIdent rest2 with
          | none => none
          | some (v, rest3) =>
              match rest3 with
              | '.' :: rest4 =>
                  match matchIdent rest4 with
                  | none => none
                  | some (s, rest5) =>
                      if rest5.isEmpty then
                        some (String.mk t, String.mk v, String.mk s)
                      else none
              | _ => none
      | _ => none

/-- Match `ALIAS_PATTERN` `^([a-zA-Z_][a-zA-Z0-9_]*)=(.+)$` on a stripped
string. -/
def matchAliasPat (cs : List Char) : Option (String × List Char) :=
  match matchIdent cs with
  | none => none
  | some (a, rest) =>
      match rest with
      | '=' :: value =>
          if value.isEmpty || value.contains '\n' then none
          else some (String.mk a, value)
      | _ => none

/-- `ExpressionParser.parse_expression`: strip, then try
assignment/formula (split on whether the right-hand side contains a
`variable.solution` reference), then read, then alias. -/
def parse_expression (expression : String) : Except ExecErr ParsedStmt :=
  let cs := pyStrip expression.data
  match matchAssignmentPat cs with
  | some (v, s, valueChars) =>
      let valueStr := String.mk valueChars
      if contains_variable_references valueStr then
        .ok (.formula v s valueStr (extract_variable_references valueStr))
      else
        .ok (.assignment v s (parse_value valueStr))
  | none =>
      match matchReadPat cs with
      | some (t, v, s) => .ok (.read t v s)
      | none =>
          match matchAliasPat cs with
          | some (a, valueChars) =>
              if !is_valid_alias a then .error (.invalidAliasName a)
              else .ok (.aliasStmt a (parse_value (String.mk valueChars)))
          | none => .error (.invalidExpr (String.mk cs))

/-- Evaluation errors of `V2FormulaEvaluator.evaluate_formula`.  The source
wraps every exception in a single `ValueError` message; the constructors
record the underlying cause. -/
inductive EvalErr : Type
  | solutionNotFound (sol : String)
  | variableNotFound (v sol : String)
  | notNumeric (fullRef : String)
  | nameNotDefined (name : String)
  | typeErr (msg : String)
  | zeroDivision
  | syntaxErr
  | unmodelled (what : String)
deriving DecidableEq, Repr

/-- `str.replace('^', '**')` — single-character needle, hence a simple
character-wise expansion. -/
def replaceCaret (s : String) : String :=
  String.mk (s.data.flatMap (fun c => if c = '^' then ['*', '*'] else [c]))

/-- Arithmetic tokens of the restricted `eval` input. -/
inductive Tok : Type
  | num (q : PyQ)
  | name (s : String)
  | plus | minus | star | slash | dstar | lparen | rparen | comma
deriving DecidableEq, Repr

/-- Tokenizer for the arithmetic expression handed to Python `eval` after
reference substitution and caret replacement.  Numbers are decimal literals
(optionally with a fractional part); `**` is the power operator.  Any other
character is a syntax error, as `eval` would raise on the characters that
can reach this point. -/
def tokenizeAux : Nat → List Char → Except EvalErr (List Tok)
  | 0, _ => .error .syntaxErr
  | _ + 1, [] => .ok []
  | fuel + 1, c :: rest =>
      if isPySpace c then tokenizeAux fuel rest
      else if isDigitChar c then
        let intPart := (c :: rest).takeWhile isDigitChar
        let rest2 := (c :: rest).dropWhile isDigitChar
        match rest2 with
        | '.' :: rest3 =>
            let fracPart := rest3.takeWhile isDigitChar
            let rest4 := rest3.dropWhile isDigitChar
            match pyFloatParse (intPart ++ '.' :: fracPart) with
            | some q => (tokenizeAux fuel rest4).map (fun ts => .num q :: ts)
            | none => .error .syntaxErr
        | _ =>
            match pyIntParse intPart with
            | some n => (tokenizeAux fuel rest2).map (fun ts => .num (PyQ.ofInt n) :: ts)
            | none => .error .syntaxErr
      else if identStartChar c then
        let id := (c :: rest).takeWhile identChar
        let rest2 := (c :: rest).dropWhile identChar
        (tokenizeAux fuel rest2).map (fun ts => .name (String.mk id) :: ts)
      else if c = '+' then (tokenizeAux fuel rest).map (.plus :: ·)
      else if c = '-' then (tokenizeAux fuel rest).map (.minus :: ·)
      else if c = '*' then
        match rest with
        | '*' :: rest2 => (tokenizeAux fuel rest2).map (.dstar :: ·)
        | _ => (tokenizeAux fuel rest).map (.star :: ·)
      else if c = '/' then (tokenizeAux fuel rest).map (.slash :: ·)
      else if c = '(' then (tokenizeAux fuel rest).map (.lparen :: ·)
      else if c = ')' then (tokenizeAux fuel rest).map (.rparen :: ·)
      else if c = ',' then (tokenizeAux fuel rest).map (.comma :: ·)
      else .error .syntaxErr

/-- Tokenize a whole string. -/
def tokenize (s : String) : Except EvalErr (List Tok) :=
  tokenizeAux (s.data.length + 1) s.data

/-- Abstract syntax of the arithmetic expressions `eval` receives. -/
inductive Ast : Type
  | num (q : PyQ)
  | var (s : String)
  | call (f : String) (args : List Ast)
  | add (a b : Ast)
  | sub (a b : Ast)
  | mul (a b : Ast)
  | div (a b : Ast)
  | pow (a b : Ast)
  | neg (a : Ast)

/-- Recursive-descent parser for the Python arithmetic expression grammar
restricted to the constructs reachable through formulas:
`expr := term (('+'|'-') term)*`, `term := unary (('*'|'/') unary)*`,
`unary := ('-'|'+')* power`, `power := atom ['**' unary]` (right
associative, as in Python), `atom := number | name ['(' args ')'] |
'(' expr ')'`.  `fuel` is structural; `parseArith` supplies enough for any
token list. -/
def parseExprA : Nat → List Tok → Except EvalErr (Ast × List Tok)
  | 0, _ => .error .syntaxErr
  | fuel + 1, ts => do
      let (a, ts) ← parseTermA fuel ts
      parseExprTail fuel a ts
where
  parseExprTail : Nat → Ast → List Tok → Except EvalErr (Ast × List Tok)
    | 0, _, _ => .error .syntaxErr
    | fuel + 1, a, ts =>
        match ts with
        | .plus :: ts2 => do
            let (b, ts3) ← parseTermA fuel ts2
            parseExprTail fuel (.add a b) ts3
        | .minus :: ts2 => do
            let (b, ts3) ← parseTermA fuel ts2
            parseExprTail fuel (.sub a b) ts3
        | _ => .ok (a, ts)
  parseTermA : Nat → List Tok → Except EvalErr (Ast × List Tok)
    | 0, _ => .error .syntaxErr
    | fuel + 1, ts => do
        let (a, ts) ← parseUnaryA fuel ts
        parseTermTail fuel a ts
  parseTermTail : Nat → Ast → List Tok → Except EvalErr (Ast × List Tok)
    | 0, _, _ => .error .syntaxErr
    | fuel + 1, a, ts =>
        match ts with
        | .star :: ts2 => do
            let (b, ts3) ← parseUnaryA fuel ts2
            parseTermTail fuel (.mul a b) ts3
        | .slash :: ts2 => do
            let (b, ts3) ← parseUnaryA fuel ts2
            parseTermTail fuel (.div a b) ts3
        | _ => .ok (a, ts)
  parseUnaryA : Nat → List Tok → Except EvalErr (Ast × List Tok)
    | 0, _ => .error .syntaxErr
    | fuel + 1, ts =>
        match ts with
        | .minus :: ts2 => do
            let (a, ts3) ← parseUnaryA fuel ts2
            .ok (.neg a, ts3)
        | .plus :: ts2 => parseUnaryA fuel ts2
        | _ => parsePowerA fuel ts
  parsePowerA : Nat → List Tok → Except EvalErr (Ast × List Tok)
    | 0, _ => .error .syntaxErr
    | fuel + 1, ts => do
        let (a, ts) ← parseAtomA fuel ts
        match ts with
        | .dstar :: ts2 => do
            let (b, ts3) ← parseUnaryA fuel ts2
            .ok (.pow a b, ts3)
        | _ => .ok (a, ts)
  parseAtomA : Nat → List Tok → Except EvalErr (Ast × List Tok)
    | 0, _ => .error .syntaxErr
    | fuel + 1, ts =>
        match ts with
        | .num q :: ts2 => .ok (.num q, ts2)
        | .name s :: .lparen :: ts2 =>
            (match ts2 with
             | .rparen :: ts3 => .ok (.call s [], ts3)
             | _ => do
                let (args, ts3) ← parseArgsA fuel ts2
                match ts3 with
                | .rparen :: ts4 => .ok (.call s args, ts4)
                | _ => .error .syntaxErr)
        | .name s :: ts2 => .ok (.var s, ts2)
        | .lparen :: ts2 => do
            let (a, ts3) ← parseExprA fuel ts2
            match ts3 with
            | .rparen :: ts4 => .ok (a, ts4)
            | _ => .error .syntaxErr
        | _ => .error .syntaxErr
  parseArgsA : Nat → List Tok → Except EvalErr (List Ast × List Tok)
    | 0, _ => .error .syntaxErr
    | fuel + 1, ts => do
        let (a, ts) ← parseExprA fuel ts
        match ts with
        | .comma :: ts2 => do
            let (args, ts3) ← parseArgsA fuel ts2
            .ok (a :: args, ts3)
        | _ => .ok ([a], ts)

/-- Parse a whole token list as one expression; leftover tokens are a syntax
error (mirroring `eval`, which parses the whole string). -/
def parseArith (ts : List Tok) : Except EvalErr Ast := do
  let (a, rest) ← parseExprA (8 * (ts.length + 1)) ts
  if rest.isEmpty then .ok a else .error .syntaxErr

/-- Semantics of one permitted function: arguments to result. -/
def FnSem : Type := List PyQ → Except EvalErr PyQ

/-- Python banker's rounding (`round` rounds halves to even). -/
def pyRound (q : PyQ) : ℤ :=
  let f := q.qfloor
  let r := 2 * (q.num - f * q.den)
  if r < q.den then f
  else if r > q.den then f + 1
  else if f % 2 = 0 then f else f + 1

/-- Binary-search integer square root (fuel-based so that it reduces by
kernel computation; 70 halvings cover any input below `2 ^ 69`). -/
def isqrtGo (n : Nat) : Nat → Nat → Nat → Nat
  | 0, lo, _ => lo
  | fuel + 1, lo, hi =>
      if lo + 1 < hi then
        let mid := (lo + hi) / 2
        if mid * mid ≤ n then isqrtGo n fuel mid hi else isqrtGo n fuel lo mid
      else lo

/-- Integer square root. -/
def isqrt (n : Nat) : Nat := isqrtGo n 70 0 (n + 1)

/-- Exact rational square root when it exists.  Python's `math.sqrt`
computes a float; results that are irrational are not representable in this
exact model and are marked `unmodelled` — no verified claim depends on
them. -/
def ratSqrt (q : PyQ) : Except EvalErr PyQ :=
  if q.num < 0 then .error (.unmodelled "math domain error")
  else
    let rn := isqrt q.num.toNat
    let rd := isqrt q.den.toNat
    if (rn * rn : ℤ) = q.num && (rd * rd : ℤ) = q.den then
      .ok (PyQ.mk' rn rd)
    else .error (.unmodelled "irrational sqrt")

/-- `V2FormulaEvaluator.FUNCTIONS`: the function table of the V2 evaluator,
in source order — `sin, cos, tan, sqrt, abs, min, max, round`.
Transcendental results are irrational in general and marked `unmodelled`;
no verified claim depends on their numeric values. -/
def V2FUNCTIONS : List (String × FnSem) :=
  [ ("sin", fun _ => .error (.unmodelled "sin")),
    ("cos", fun _ => .error (.unmodelled "cos")),
    ("tan", fun _ => .error (.unmodelled "tan")),
    ("sqrt", fun args =>
      match args with
      | [q] => ratSqrt q
      | _ => .error (.typeErr "sqrt arity")),
    ("abs", fun args =>
      match args with
      | [q] => .ok q.qabs
      | _ => .error (.typeErr "abs arity")),
    ("min", fun args =>
      match args with
      | [] => .error (.typeErr "min arity")
      | [_] => .error (.typeErr "min of a number")
      | q :: rest => .ok (rest.foldl (fun acc x => if x.blt acc then x else acc) q)),
    ("max", fun args =>
      match args with
      | [] => .error (.typeErr "max arity")
      | [_] => .error (.typeErr "max of a number")
      | q :: rest => .ok (rest.foldl (fun acc x => if acc.blt x then x else acc) q)),
    ("round", fun args =>
      match args with
      | [q] => .ok (PyQ.ofInt (pyRound q))
      | _ => .error (.typeErr "round arity")) ]

/-- The key list of `V2FormulaEvaluator.FUNCTIONS`. -/
def v2FunctionNames : List String := V2FUNCTIONS.map (fun p => p.1)

/-- The key list of the legacy `ExpressionParser.math_functions` table in
`variable_system.py`, in source order.  (Only the names are needed; the
legacy evaluator's numeric pipeline is not exercised by any claim.) -/
def mathFunctionNames : List String :=
  ["sqrt", "sin", "cos", "tan", "abs", "max", "min",
   "pow", "exp", "log", "log10", "ceil", "floor", "round"]

/-- Python `**` on rationals: integral exponents are exact; a fractional
exponent produces an irrational float in general and is `unmodelled`. -/
def ratPow (b e : PyQ) : Except EvalErr PyQ :=
  if e.den = 1 then
    if b.num = 0 && e.num < 0 then .error .zeroDivision
    else .ok (b.zpow e.num)
  else .error (.unmodelled "fractional power")

/-- Evaluate an arithmetic AST in the restricted environment
`{"__builtins__": {}, **FUNCTIONS}` — exactly the names of `table` are
defined; a bare name that denotes a function cannot be coerced to `float`
(Python `TypeError`), any other name raises `NameError`. -/
def evalAst (table : List (String × FnSem)) : Ast → Except EvalErr PyQ
  | .num q => .ok q
  | .var s =>
      match lookupA table s with
      | some _ => .error (.typeErr "function object is not a float")
      | none => .error (.nameNotDefined s)
  | .call f args => do
      let vs ← evalArgs table args
      match lookupA table f with
      | some sem => sem vs
      | none => .error (.nameNotDefined f)
  | .add a b => do .ok (PyQ.add (← evalAst table a) (← evalAst table b))
  | .sub a b => do .ok (PyQ.sub (← evalAst table a) (← evalAst table b))
  | .mul a b => do .ok (PyQ.mul (← evalAst table a) (← evalAst table b))
  | .div a b => do
      let x ← evalAst table a
      let y ← evalAst table b
      if y.num = 0 then .error .zeroDivision else .ok (x.div y)
  | .pow a b => do ratPow (← evalAst table a) (← evalAst table b)
  | .neg a => do .ok ((← evalAst table a).neg)
where
  evalArgs (table : List (String × FnSem)) : List Ast → Except EvalErr (List PyQ)
    | [] => .ok []
    | a :: rest => do
        let v ← evalAst table a
        let vs ← evalArgs table rest
        .ok (v :: vs)

/-- `V2Variable` (`variable_system_v2.py`).  `valueRaw` is the Python
`_value` attribute; `token` models Python object identity (fresh per
allocation) and is only consulted by the hybrid layer's `is` comparison. -/
structure V2Variable : Type where
  name : String
  solution_name : String
  valueRaw : PyVal
  is_formula : Bool
  formula : Option String
  dependencies : List String
  last_computed_value : Option PyQ
  computation_error : Option EvalErr
  token : Nat
deriving DecidableEq, Repr

/-- `V2Variable.__init__`: formula state empty, caches `None`. -/
def V2Variable.new (name : String) (value : PyVal) (solutionName : String)
    (tok : Nat) : V2Variable :=
  { name := name, solution_name := solutionName, valueRaw := value,
    is_formula := false, formula := none, dependencies := [],
    last_computed_value := none, computation_error := none, token := tok }

/-- `full_id` property: `variable@solution`. -/
def V2Variable.full_id (v : V2Variable) : String :=
  v.name ++ "@" ++ v.solution_name

/-- `read_id` property: `variable.solution`. -/
def V2Variable.read_id (v : V2Variable) : String :=
  v.name ++ "." ++ v.solution_name

/-- The `value` property setter: stores the literal and clears all formula
state (the cached `last_computed_value` is NOT touched by the source). -/
def V2Variable.setValue (v : V2Variable) (newValue : PyVal) : V2Variable :=
  { v with valueRaw := newValue, is_formula := false, formula := none,
           dependencies := [], computation_error := none }

/-- The `value` property getter: a formula variable reports
`get_computed_value()` with no registry — the cached value or `0.0`;
otherwise the stored literal. -/
def V2Variable.valueGet (v : V2Variable) : PyVal :=
  if v.is_formula then .float (v.last_computed_value.getD 0) else v.valueRaw

/-- `V2Solution` (`variable_system_v2.py`): per-solution variable and alias
tables. -/
structure V2Solution : Type where
  name : String
  /-- Python attribute `variables` (`vars` here: `variables` is reserved). -/
  vars : List (String × V2Variable)
  aliases : List (String × String)
deriving DecidableEq, Repr

/-- `V2Solution.__init__`. -/
def V2Solution.new (name : String) : V2Solution :=
  { name := name, vars := [], aliases := [] }

/-- The process-wide solution registry (`solution_registry` dict). -/
abbrev Registry : Type := List (String × V2Solution)

/-- `V2Solution.create_variable`: store a fresh variable under its name.
The source also returns the variable; callers here re-look it up. -/
def V2Solution.create_variable (sol : V2Solution) (name : String)
    (value : PyVal) (tok : Nat) : V2Solution :=
  { sol with vars :=
      updateA sol.vars name (V2Variable.new name value sol.name tok) }

/-- `V2Solution.get_variable`: direct name first, then the alias table. -/
def V2Solution.get_variable (sol : V2Solution) (nameOrAlias : String) :
    Option V2Variable :=
  match lookupA sol.vars nameOrAlias with
  | some v => some v
  | none =>
      match lookupA sol.aliases nameOrAlias with
      | some realName => lookupA sol.vars realName
      | none => none

/-- `V2Solution.set_alias`: reject `@`/`.` in the alias, reject a missing
target variable, then write the alias table.  No collision check of any
kind is performed by the source. -/
def V2Solution.set_alias (sol : V2Solution) (a : String) (variableName : String) :
    Except ExecErr V2Solution :=
  if !is_valid_alias a then .error (.invalidAliasName a)
  else if (lookupA sol.vars variableName).isNone then
    .error (.variableNotFoundAlias variableName)
  else .ok { sol with aliases := updateA sol.aliases a variableName }

/-- The value a reference substitutes
(`V2FormulaEvaluator._resolve_variable_references.replace_reference`):
find the solution, find the variable (by name or alias), take its computed
or literal value, require it numeric, and render it with `str()`. -/
def refValue (reg : Registry) (v s : String) : Except EvalErr String :=
  match lookupA reg s with
  | none => .error (.solutionNotFound s)
  | some sol =>
      match sol.get_variable v with
      | none => .error (.variableNotFound v s)
      | some var =>
          let value : PyVal :=
            if var.is_formula then .float (var.last_computed_value.getD 0)
            else var.valueRaw
          match value with
          | .int _ => .ok (pyStrNum value)
          | .float _ => .ok (pyStrNum value)
          | _ => .error (.notNumeric (v ++ "." ++ s))

/-- Left-to-right scan-and-substitute of every `variable.solution`
occurrence, as `re.sub` performs it; an exception from any replacement
aborts the whole substitution. -/
def resolveRefsAux (reg : Registry) : Nat → List Char → Except EvalErr (List Char)
  | 0, _ => .error .syntaxErr
  | _ + 1, [] => .ok []
  | fuel + 1, c :: rest =>
      match matchRefAt (c :: rest) with
      | some (v, s, rest3) => do
          let repl ← refValue reg (String.mk v) (String.mk s)
          let tail ← resolveRefsAux reg fuel rest3
          .ok (repl.data ++ tail)
      | none => do
          let tail ← resolveRefsAux reg fuel rest
          .ok (c :: tail)

/-- `V2FormulaEvaluator._resolve_variable_references`. -/
def resolve_variable_references (formula : String) (reg : Registry) :
    Except EvalErr String :=
  (resolveRefsAux reg (formula.data.length + 1) formula.data).map String.mk

/-- `V2FormulaEvaluator.evaluate_formula`: substitute references, rewrite
`^` to `**`, evaluate the arithmetic in the restricted environment whose
only names are `FUNCTIONS`, and coerce to float. -/
def evaluate_formula (formula : String) (reg : Registry) : Except EvalErr PyQ :=
  match resolve_variable_references formula reg with
  | .error e => .error e
  | .ok resolved =>
      let rewritten := replaceCaret resolved
      match tokenize rewritten with
      | .error e => .error e
      | .ok toks =>
          match parseArith toks with
          | .error e => .error e
          | .ok ast => evalAst V2FUNCTIONS ast

/-- `V2Variable.set_formula`: store the formula text, mark the variable as
a formula, extract dependencies, then evaluate immediately — caching the
result on success, or recording the error and setting the cache to `0.0`
on failure.  (The registry passed by `execute_expression` already reflects
the formula-text update, mirroring Python's in-place mutation of the shared
object.) -/
def V2Variable.set_formula (v : V2Variable) (f : String) (reg : Registry) :
    V2Variable :=
  let v1 := { v with formula := some f, is_formula := true,
                     dependencies := extract_variable_references f }
  match evaluate_formula f reg with
  | .ok q => { v1 with last_computed_value := some q, computation_error := none }
  | .error e =>
      { v1 with computation_error := some e, last_computed_value := some 0 }

/-- `V2Variable.get_computed_value`: without a registry return the cache
(or `0.0`); with one, re-evaluate — refreshing the cache and clearing the
error on success, recording the error and returning the untouched cache on
failure.  Returns the (possibly) updated variable together with the value. -/
def V2Variable.get_computed_value (v : V2Variable) (reg : Option Registry) :
    V2Variable × PyVal :=
  if v.is_formula = false then (v, v.valueRaw)
  else
    match reg with
    | none => (v, .float (v.last_computed_value.getD 0))
    | some r =>
        match v.formula with
        | none =>
            ({ v with computation_error := some (.typeErr "formula is None") },
             .float (v.last_computed_value.getD 0))
        | some f =>
            match evaluate_formula f r with
            | .ok q =>
                ({ v with last_computed_value := some q,
                          computation_error := none }, .float q)
            | .error e =>
                ({ v with computation_error := some e },
                 .float (v.last_computed_value.getD 0))

/-- Registry write-back for the executing solution: Python's registry entry
aliases the mutated solution object, so when the solution is registered its
entry changes with it. -/
def updateIfPresent (reg : Registry) (k : String) (sol : V2Solution) : Registry :=
  if (lookupA reg k).isSome then updateA reg k sol else reg

/-- `V2Solution.execute_expression`: classify and dispatch.  Assignment and
Formula first reject a write whose solution part differs from this
solution's name, then create/update the variable; Alias creates a backing
`_alias_<name>` variable or updates the existing target; a Read statement
reaches the final `else` and raises `Cannot execute expression type`.
Returns the updated solution together with the updated registry view. -/
def V2Solution.execute_expression (sol : V2Solution) (expression : String)
    (reg : Registry) : Except ExecErr (V2Solution × Registry) :=
  match parse_expression expression with
  | .error e => .error e
  | .ok parsed =>
    match parsed with
    | .assignment v s val =>
        if s ≠ sol.name then .error (.crossSolution s)
        else
          let w := match lookupA sol.vars v with
            | some w => w
            | none => V2Variable.new v .pynone sol.name 0
          let sol' := { sol with vars := updateA sol.vars v (w.setValue val) }
          .ok (sol', updateIfPresent reg sol.name sol')
    | .formula v s f _ =>
        if s ≠ sol.name then .error (.crossSolution s)
        else
          let w := match lookupA sol.vars v with
            | some w => w
            | none => V2Variable.new v .pynone sol.name 0
          let w1 := { w with formula := some f, is_formula := true,
                             dependencies := extract_variable_references f }
          let sol1 := { sol with vars := updateA sol.vars v w1 }
          let reg1 := updateIfPresent reg sol.name sol1
          let w2 := w.set_formula f reg1
          let sol2 := { sol with vars := updateA sol.vars v w2 }
          .ok (sol2, updateIfPresent reg sol.name sol2)
    | .aliasStmt a val =>
        if (lookupA sol.vars a).isNone && (lookupA sol.aliases a).isNone then
          let vname := "_alias_" ++ a
          let w := (V2Variable.new vname .pynone sol.name 0).setValue val
          let sol1 := { sol with vars := updateA sol.vars vname w }
          match sol1.set_alias a vname with
          | .ok sol2 => .ok (sol2, updateIfPresent reg sol.name sol2)
          | .error e => .error e
        else
          match sol.get_variable a with
          | some w =>
              let sol' :=
                { sol with vars := updateA sol.vars w.name (w.setValue val) }
              .ok (sol', updateIfPresent reg sol.name sol')
          | none => .ok (sol, reg)
    | .read _ _ _ => .error .cannotExecuteType

/-- Execute a statement on the registered solution named `selfName` and
return the updated registry.  Every source call site executes on a solution
that is present in the registry. -/
def execOn (reg : Registry) (selfName : String) (expression : String) :
    Except ExecErr Registry :=
  match lookupA reg selfName with
  | none => .error (.selfNotRegistered selfName)
  | some sol => (sol.execute_expression expression reg).map (fun p => p.2)

/-- `V2DependencyTracker` (`visual_solving_advanced_v2.py`): forward edges
`variable.solution → dependencies` and the reverse index. -/
structure V2DependencyTracker : Type where
  dependency_graph : List (String × List String)
  reverse_dependencies : List (String × List String)
deriving DecidableEq, Repr

/-- The empty tracker. -/
def V2DependencyTracker.new : V2DependencyTracker :=
  { dependency_graph := [], reverse_dependencies := [] }

/-- `V2DependencyTracker.add_dependency`: overwrite the forward edge set of
`variableId` and add `variableId` to the reverse set of every dependency. -/
def V2DependencyTracker.add_dependency (t : V2DependencyTracker)
    (variableId : String) (dependencies : List String) : V2DependencyTracker :=
  { dependency_graph := updateA t.dependency_graph variableId dependencies,
    reverse_dependencies :=
      dependencies.foldl
        (fun r dep =>
          updateA r dep (addIfAbsent ((lookupA r dep).getD []) variableId))
        t.reverse_dependencies }

/-- `V2DependencyTracker.get_dependent_variables`: reverse lookup. -/
def V2DependencyTracker.get_dependent_variables (t : V2DependencyTracker)
    (variableId : String) : List String :=
  (lookupA t.reverse_dependencies variableId).getD []

/-- The inner `check_circular` of
`V2DependencyTracker.has_circular_dependency`: depth-first search over the
existing forward graph with a shared, monotone `visited` set and the
ancestor `path`.  Python's shared-set `path.add`/`path.remove` discipline is
exactly the immutable ancestor chain passed down here.  `fuel` is structural;
the caller supplies more than the graph's total size, which Python's
`visited` monotonicity makes sufficient. -/
def checkCircular (g : List (String × List String)) :
    Nat → String → List String → List String → Bool × List String
  | 0, _, visited, _ => (false, visited)
  | fuel + 1, varId, visited, path =>
      if path.contains varId then (true, visited)
      else if visited.contains varId then (false, visited)
      else
        let visited' := varId :: visited
        let deps := (lookupA g varId).getD []
        deps.foldl
          (fun acc d =>
            if acc.1 then acc
            else checkCircular g fuel d acc.2 (varId :: path))
          (false, visited')

/-- Fuel bound: one unit per node and per edge of the forward graph. -/
def graphSize (g : List (String × List String)) : Nat :=
  g.foldl (fun n p => n + p.2.length + 1) 1

/-- `V2DependencyTracker.has_circular_dependency`: DFS from `variableId`
through the existing forward graph.  The `dependencies` parameter is
accepted but never used by the source. -/
def V2DependencyTracker.has_circular_dependency (t : V2DependencyTracker)
    (variableId : String) (dependencies : List String) : Bool :=
  let _ := dependencies
  (checkCircular t.dependency_graph (graphSize t.dependency_graph + 1)
    variableId [] []).1

/-- `VariableType` (`visual_solving_advanced_v2.py`). -/
inductive VariableType : Type
  | controllable | calculated | auxiliary | reference
deriving DecidableEq, Repr

/-- `HybridVariable`: legacy metadata plus its own private `V2Variable`
copy.  Note that `HybridVariable.__init__` allocates a NEW `V2Variable`
(source line 56), distinct from the one `V2Solution.create_variable` stored
in the paired V2 solution — the two objects are never identical. -/
structure HybridVariable : Type where
  name : String
  solution_name : String
  variable_id : Nat
  var_type : VariableType
  aliases : List String
  v2_variable : V2Variable
deriving DecidableEq, Repr

/-- `legacy_id` property: `#number`. -/
def HybridVariable.legacy_id (v : HybridVariable) : String :=
  "#" ++ toString v.variable_id

/-- `legacy_full_id` property: `#number.name`. -/
def HybridVariable.legacy_full_id (v : HybridVariable) : String :=
  "#" ++ toString v.variable_id ++ "." ++ v.name

/-- `new_write_id` property: `variable@solution`. -/
def HybridVariable.new_write_id (v : HybridVariable) : String :=
  v.name ++ "@" ++ v.solution_name

/-- `new_read_id` property: `variable.solution`. -/
def HybridVariable.new_read_id (v : HybridVariable) : String :=
  v.name ++ "." ++ v.solution_name

/-- `HybridSolution`: name, the legacy variable table and the legacy id
counter.  The paired `V2Solution` object is shared with the manager's
registry and lives there (`v2reg` of `HybridState`). -/
structure HybridSolution : Type where
  name : String
  vars : List (String × HybridVariable)
  next_variable_id : Nat
deriving DecidableEq, Repr

/-- `HybridSolution.__init__` (variable table part). -/
def HybridSolution.new (name : String) : HybridSolution :=
  { name := name, vars := [], next_variable_id := 1 }

/-- `HybridSolution.get_variable_by_reference`: strip, then try — in source
order — the direct name, the `#number` legacy id, the `#number.name` legacy
full id (matched on the numeric id only), a V2 name/alias resolved in the
paired `V2Solution` and mapped back through object identity (`is`, i.e.
token equality), and finally the hybrid alias lists. -/
def HybridSolution.get_variable_by_reference (hs : HybridSolution)
    (v2sol : V2Solution) (reference : String) : Option HybridVariable :=
  let ref := String.mk (pyStrip reference.data)
  match lookupA hs.vars ref with
  | some v => some v
  | none =>
    let byPlainId : Option HybridVariable :=
      if ref.data.head? = some '#' then
        match pyIntParse (ref.data.drop 1) with
        | some n =>
            (hs.vars.find? (fun p => (p.2.variable_id : ℤ) = n)).map (fun p => p.2)
        | none => none
      else none
    match byPlainId with
    | some v => some v
    | none =>
      let byFullId : Option HybridVariable :=
        if ref.data.contains '.' && ref.data.head? = some '#' then
          match pyIntParse ((ref.data.takeWhile (fun c => c ≠ '.')).drop 1) with
          | some n =>
              (hs.vars.find? (fun p => (p.2.variable_id : ℤ) = n)).map (fun p => p.2)
          | none => none
        else none
      match byFullId with
      | some v => some v
      | none =>
        let byV2 : Option HybridVariable :=
          match v2sol.get_variable ref with
          | some v2var =>
              (hs.vars.find? (fun p => p.2.v2_variable.token = v2var.token)).map
                (fun p => p.2)
          | none => none
        match byV2 with
        | some v => some v
        | none => (hs.vars.find? (fun p => p.2.aliases.contains ref)).map (fun p => p.2)

/-- The hybrid world state: the manager's hybrid solutions, the shared V2
registry (`v2_solution_manager.get_all_solutions()`), the global dependency
tracker, and a fresh-token counter modelling object allocation. -/
structure HybridState : Type where
  hybrids : List (String × HybridSolution)
  v2reg : Registry
  tracker : V2DependencyTracker
  freshTok : Nat
deriving DecidableEq, Repr

/-- An empty manager state. -/
def HybridState.empty : HybridState :=
  { hybrids := [], v2reg := [], tracker := V2DependencyTracker.new,
    freshTok := 1 }

/-- `HybridSolution.__init__` + `V2SolutionManager.register_solution`:
create the hybrid solution and its paired `V2Solution` and register both. -/
def HybridState.register (st : HybridState) (name : String) : HybridState :=
  { st with
      hybrids := updateA st.hybrids name (HybridSolution.new name),
      v2reg := updateA st.v2reg name (V2Solution.new name) }

/-- `HybridSolution.create_variable`: create the V2 variable in the paired
`V2Solution` first, then the hybrid variable (whose `__init__` allocates its
OWN `V2Variable` — a second, distinct object), bump the legacy id counter,
then try to set each alias on the V2 solution (failures only print a
warning).  A no-op when `solName` is not registered (never the case at the
source's call sites). -/
def HybridState.create_variable (st : HybridState) (solName name : String)
    (value : PyVal) (varType : VariableType) (aliases : List String) :
    HybridState :=
  match lookupA st.hybrids solName, lookupA st.v2reg solName with
  | some hs, some v2s =>
      let v2s1 := v2s.create_variable name value st.freshTok
      let hvar : HybridVariable :=
        { name := name, solution_name := solName,
          variable_id := hs.next_variable_id, var_type := varType,
          aliases := aliases,
          v2_variable := V2Variable.new name value solName (st.freshTok + 1) }
      let hs1 := { hs with vars := updateA hs.vars name hvar,
                           next_variable_id := hs.next_variable_id + 1 }
      let v2s2 := aliases.foldl
        (fun s a => match s.set_alias a name with
                    | .ok s' => s'
                    | .error _ => s)
        v2s1
      { st with hybrids := updateA st.hybrids solName hs1,
                v2reg := updateA st.v2reg solName v2s2,
                freshTok := st.freshTok + 2 }
  | _, _ => st

/-- `HybridSolution.execute_v2_expression`: run the V2 execution against the
manager's registry, then — for a Formula statement — re-parse the text and
register its dependency set with the global tracker under the assigned
variable's `new_read_id`, provided the assigned name resolves to a hybrid
variable (exceptions in this second phase are swallowed by the source; a
`None` resolution silently skips registration).  No cycle check of any kind
is performed. -/
def HybridState.execute_v2_expression (st : HybridState) (selfName : String)
    (expression : String) : Except ExecErr HybridState :=
  match lookupA st.hybrids selfName with
  | none => .error (.selfNotRegistered selfName)
  | some _ =>
      match execOn st.v2reg selfName expression with
      | .error e => .error e
      | .ok v2reg' =>
          let st1 := { st with v2reg := v2reg' }
          match parse_expression expression with
          | .ok (.formula varName _ _ deps) =>
              (match lookupA st1.hybrids selfName, lookupA v2reg' selfName with
               | some hs, some v2s =>
                   match hs.get_variable_by_reference v2s varName with
                   | some hvar =>
                       .ok { st1 with tracker :=
                              st1.tracker.add_dependency hvar.new_read_id deps }
                   | none => .ok st1
               | _, _ => .ok st1)
          | _ => .ok st1

/-- `ExpressionParser.validate_name` (`variable_system.py`): non-empty,
first character a letter or digit, no `@` or `.`, and
`re.match(r'^[a-zA-Z0-9_]+$', name)`.  The `$` anchor of Python `re` also
matches just before a single trailing newline; `pyDollarWordMatch` models
that exactly.  (Python's `isalpha`/`isdigit` accept some non-ASCII
characters which the final ASCII-only regex then rejects, so on every input
the ASCII reading used here agrees with the source's overall result.) -/
def isAsciiLetter (c : Char) : Bool :=
  ('a' ≤ c && c ≤ 'z') || ('A' ≤ c && c ≤ 'Z')

/-- `[a-zA-Z0-9_]`, the word characters of the final name regex. -/
def isWordChar (c : Char) : Bool :=
  isAsciiLetter c || isDigitChar c || c = '_'

/-- `re.match(r'^[a-zA-Z0-9_]+$', s)` succeeds: after one or more word
characters, `$` holds at the end of the string or just before a trailing
newline (so the last remaining character may be a bare `'\n'`). -/
def pyDollarWordTail : List Char → Bool
  | [] => true
  | [c] => c = '\n' || isWordChar c
  | c :: rest => isWordChar c && pyDollarWordTail rest

/-- Whole-string form of the final regex check. -/
def pyDollarWordMatch : List Char → Bool
  | [] => false
  | c :: rest => isWordChar c && pyDollarWordTail rest

/-- `ExpressionParser.validate_name` on the character list of the name. -/
def validateChars : List Char → Bool
  | [] => false
  | c :: rest =>
      if !(isAsciiLetter c || isDigitChar c) then false
      else if (c :: rest).contains '@' || (c :: rest).contains '.' then false
      else pyDollarWordMatch (c :: rest)

/-- `ExpressionParser.validate_name`. -/
def validate_name (name : String) : Bool :=
  validateChars name.data

/-- The name language claimed by the specification —
`^[A-Za-z0-9][A-Za-z0-9_]*$` as an exact (full-string) regular language —
on a character list.  This definition follows the spec's words, for
comparison with `validate_name`. -/
def claimedChars : List Char → Bool
  | [] => false
  | c :: rest => (isAsciiLetter c || isDigitChar c) && rest.all isWordChar

/-- Whole-string form of the claimed name language. -/
def claimedNameLang (name : String) : Bool :=
  claimedChars name.data

/-- The solution part a statement writes to, when it writes
(`parsed['solution']` for Assignment and Formula statements). -/
def ParsedStmt.writeTarget : ParsedStmt → Option String
  | .assignment _ s _ => some s
  | .formula _ s _ _ => some s
  | .read _ _ _ => none
  | .aliasStmt _ _ => none

/-- Nonempty all-word-character string (the shape of every identifier the
statement grammar can produce). -/
def wordName (s : String) : Bool :=
  !s.data.isEmpty && s.data.all isWordChar

/-- A string matching the regex identifier group `[a-zA-Z_][a-zA-Z0-9_]*`. -/
def identName (t : String) : Bool :=
  match t.data with
  | [] => false
  | c :: _ => identStartChar c && t.data.all identChar

/-- Nonempty all-digit string. -/
def digitStr (s : String) : Bool :=
  !s.data.isEmpty && s.data.all isDigitChar

/-- Name of an optional hybrid variable, for readable statements. -/
def hvName (o : Option HybridVariable) : Option String :=
  o.map (fun v => v.name)

/-- A placeholder hybrid variable for total lookups in concrete scenarios
(never the actual result of any lookup below). -/
def hvDummy : HybridVariable :=
  { name := "?", solution_name := "?", variable_id := 0,
    var_type := .controllable, aliases := [],
    v2_variable := V2Variable.new "?" .pynone "?" 0 }

/-! Concrete scenario states used by the claim theorems. -/

/-- C1 scenario: hybrid solutions `X` and `Y`, each with one pre-created
hybrid variable (as `HybridBoxSolution._setup_variables` pre-creates
variables before executing statements on them). -/
def c1state0 : HybridState :=
  ((HybridState.empty.register "X").register "Y"
    |>.create_variable "X" "a" (.int 0) .controllable []
    |>.create_variable "Y" "b" (.int 0) .controllable [])

/-- C1 scenario: execute `a@X=1`, then `b@Y=a.X`, then the cyclic
`a@X=b.Y`. -/
def c1run : Except ExecErr HybridState := do
  let s1 ← c1state0.execute_v2_expression "X" "a@X=1"
  let s2 ← s1.execute_v2_expression "Y" "b@Y=a.X"
  s2.execute_v2_expression "X" "a@X=b.Y"

/-- The state of variable `a` of solution `X` after the C1 scenario. -/
def c1VarA : Option V2Variable :=
  match c1run with
  | .ok st => (lookupA st.v2reg "X").bind (fun s => s.get_variable "a")
  | .error _ => none

/-- The dependency tracker's forward graph after the C1 scenario. -/
def c1Forward : List (String × List String) :=
  match c1run with
  | .ok st => st.tracker.dependency_graph
  | .error _ => []

/-- Whether the tracker's own cycle check reports a cycle at `a.X` after
the C1 scenario. -/
def c1Detected : Bool :=
  match c1run with
  | .ok st => st.tracker.has_circular_dependency "a.X" ["b.Y"]
  | .error _ => false

/-- C2 scenario registry: solution `P` with `x = 600`. -/
def c2reg : Registry :=
  [("P", (V2Solution.new "P").create_variable "x" (.int 600) 0)]

/-- C2: a variable whose formula `x.P` evaluated successfully to 600. -/
def c2v1 : V2Variable :=
  (V2Variable.new "r" .pynone "R" 0).set_formula "x.P" c2reg

/-- C2: the same variable after `set_formula` with `y.Q` (solution `Q`
does not exist, so evaluation fails). -/
def c2v2 : V2Variable := c2v1.set_formula "y.Q" c2reg

/-- C3 scenario: a hybrid solution `panel` with one variable `length`
created through `create_variable`. -/
def c3state : HybridState :=
  (HybridState.empty.register "panel").create_variable
    "panel" "length" (.int 600) .controllable []

/-- The C3 hybrid solution. -/
def c3hs : HybridSolution :=
  (lookupA c3state.hybrids "panel").getD (HybridSolution.new "panel")

/-- The C3 paired V2 solution. -/
def c3v2s : V2Solution :=
  (lookupA c3state.v2reg "panel").getD (V2Solution.new "panel")

/-- The C3 created hybrid variable. -/
def c3var : HybridVariable := (lookupA c3hs.vars "length").getD hvDummy

/-- C4 scenario: a solution `box` with a variable `volume`, registered. -/
def c4sol : V2Solution := (V2Solution.new "box").create_variable "volume" (.int 5) 0

/-- C4 scenario registry. -/
def c4reg : Registry := [("box", c4sol)]

/-- The fourteen function names the specification claims are callable. -/
def claimedFunctionNames : List String :=
  ["sqrt", "sin", "cos", "tan", "abs", "min", "max",
   "pow", "exp", "log", "log10", "ceil", "floor", "round"]

/-- C6 scenario: a solution with variables `a` and `b` and no aliases. -/
def c6sol : V2Solution :=
  ((V2Solution.new "S").create_variable "a" (.int 1) 0).create_variable
    "b" (.int 2) 0

/-- C6 scenario: the same solution with an existing alias `c → a`. -/
def c6solAliased : V2Solution := { c6sol with aliases := [("c", "a")] }

/-- C7 scenario registry: a solution `T` with `x = 600`. -/
def c7reg : Registry :=
  [("T", (V2Solution.new "T").create_variable "x" (.int 600) 0)]

/-- C7: a variable whose formula `x.T` evaluated successfully (cache 600). -/
def c7var : V2Variable :=
  (V2Variable.new "r" .pynone "R" 0).set_formula "x.T" c7reg

/-- C7: a later registry snapshot in which solution `T` no longer exists. -/
def c7broken : Registry := []

/-- C8 scenario registry: empty solutions `panel`, `edge`, `result`. -/
def c8reg0 : Registry :=
  [("panel", V2Solution.new "panel"), ("edge", V2Solution.new "edge"),
   ("result", V2Solution.new "result")]

/-- C8: populate the registry and execute the width formula on `result`. -/
def c8regA : Except ExecErr Registry := do
  let r ← execOn c8reg0 "panel" "length@panel=600"
  let r ← execOn r "panel" "width@panel=400"
  let r ← execOn r "panel" "thickness@panel=18"
  let r ← execOn r "edge" "thickness@edge=2"
  execOn r "result" "width@result=width.panel - 2*thickness.edge"

/-- C8: the value of `result.width` after the chain. -/
def c8widthVal : Option PyVal :=
  match c8regA with
  | .ok r => ((lookupA r "result").bind (fun s => s.get_variable "width")).map
      V2Variable.valueGet
  | .error _ => none

/-- C8 continued: define `length@result=length.panel`, then change
`panel`'s length to 800. -/
def c8regB : Except ExecErr Registry := do
  let r ← c8regA
  let r ← execOn r "result" "length@result=length.panel"
  execOn r "panel" "length@panel=800"

/-- C8: re-read `result.length` with the fresh final registry snapshot. -/
def c8lengthRead : Option PyVal :=
  match c8regB with
  | .ok r => ((lookupA r "result").bind (fun s => s.get_variable "length")).map
      (fun v => (v.get_computed_value (some r)).2)
  | .error _ => none

/-! General lemmas about the dictionary model. -/

theorem lookupA_updateA_self {α : Type} (l : List (String × α)) (k : String)
    (v : α) : lookupA (updateA l k v) k = some v := by
  induction l with
  | nil => simp [updateA, lookupA]
  | cons p rest ih =>
      obtain ⟨k', v'⟩ := p
      by_cases h : k' = k
      · simp [updateA, h, lookupA]
      · simp [updateA, h, lookupA, ih]

theorem lookupA_eq_none_of_ne {α : Type} {l : List (String × α)} {k : String}
    (h : ∀ p ∈ l, p.1 ≠ k) : lookupA l k = none := by
  induction l with
  | nil => rfl
  | cons p rest ih =>
      obtain ⟨k', v'⟩ := p
      have hne : k' ≠ k := h (k', v') (List.mem_cons_self _ _)
      simp only [lookupA, if_neg hne]
      exact ih (fun q hq => h q (List.mem_cons_of_mem _ hq))

theorem find?_map_snd_eq {α : Type} {l : List (String × α)}
    {pred : String × α → Bool} {v : α}
    (hex : ∃ p, p ∈ l ∧ pred p = true)
    (hall : ∀ p ∈ l, pred p = true → p.2 = v) :
    (l.find? pred).map (fun p => p.2) = some v := by
  induction l with
  | nil => rcases hex with ⟨p, hp, _⟩; cases hp
  | cons q rest ih =>
      by_cases hq : pred q = true
      · rw [List.find?_cons_of_pos _ hq]
        simp [hall q (List.mem_cons_self _ _) hq]
      · rw [List.find?_cons_of_neg _ hq]
        rcases hex with ⟨p, hp, hpp⟩
        rcases List.mem_cons.mp hp with rfl | hmem
        · exact absurd hpp hq
        · exact ih ⟨p, hmem, hpp⟩
            (fun p hp hpred => hall p (List.mem_cons_of_mem _ hp) hpred)

/-! Lemmas about greedy scanning of identifier characters. -/

theorem takeWhile_append_sat {p : Char → Bool} {l1 l2 : List Char}
    (h1 : ∀ c ∈ l1, p c = true)
    (h2 : ∀ c, l2.head? = some c → p c = false) :
    (l1 ++ l2).takeWhile p = l1 := by
  induction l1 with
  | nil =>
      cases l2 with
      | nil => rfl
      | cons c rest => simp [List.takeWhile_cons, h2 c rfl]
  | cons c rest ih =>
      simp [List.takeWhile_cons, h1 c (List.mem_cons_self _ _),
        ih (fun d hd => h1 d (List.mem_cons_of_mem _ hd))]

theorem dropWhile_append_sat {p : Char → Bool} {l1 l2 : List Char}
    (h1 : ∀ c ∈ l1, p c = true)
    (h2 : ∀ c, l2.head? = some c → p c = false) :
    (l1 ++ l2).dropWhile p = l2 := by
  induction l1 with
  | nil =>
      cases l2 with
      | nil => rfl
      | cons c rest => simp [List.dropWhile_cons, h2 c rfl]
  | cons c rest ih =>
      simp [List.dropWhile_cons, h1 c (List.mem_cons_self _ _),
        ih (fun d hd => h1 d (List.mem_cons_of_mem _ hd))]

theorem matchIdent_exact {t : String} (ht : identName t = true)
    (suffix : List Char)
    (hsuf : ∀ c, suffix.head? = some c → identChar c = false) :
    matchIdent (t.data ++ suffix) = some (t.data, suffix) := by
  rcases hc : t.data with _ | ⟨c, rest⟩
  · rw [identName, hc] at ht; cases ht
  · rw [identName, hc] at ht
    have hstart : identStartChar c = true := by
      have := Bool.and_elim_left ht
      simpa using this
    have hall : ∀ d ∈ c :: rest, identChar d = true := by
      have := Bool.and_elim_right ht
      rw [← hc]
      intro d hd
      rw [hc] at hd
      exact List.all_eq_true.mp (by simpa using this) d hd
    have htake : ((c :: rest) ++ suffix).takeWhile identChar = c :: rest :=
      takeWhile_append_sat hall hsuf
    have hdrop : ((c :: rest) ++ suffix).dropWhile identChar = suffix :=
      dropWhile_append_sat hall hsuf
    rw [List.cons_append] at htake hdrop
    simp only [matchIdent, hstart, List.cons_append]
    rw [htake, hdrop]
    simp

theorem matchRefAt_ref {x s : String} (hx : identName x = true)
    (hs : identName s = true) :
    matchRefAt (x.data ++ '.' :: s.data) = some (x.data, s.data, []) := by
  have h1 : matchIdent (x.data ++ '.' :: s.data) = some (x.data, '.' :: s.data) :=
    matchIdent_exact hx ('.' :: s.data)
      (fun c hc => by cases hc; decide)
  have h2 : matchIdent s.data = some (s.data, []) := by
    have := matchIdent_exact hs [] (fun c hc => by cases hc)
    simpa using this
  rw [matchRefAt, h1]
  simp [h2]

theorem refEval_unknown_solution (x s : String) (reg : Registry)
    (hx : identName x = true) (hs : identName s = true)
    (hreg : lookupA reg s = none) :
    evaluate_formula (x ++ "." ++ s) reg = .error (.solutionNotFound s) := by
  have hdot : ("." : String).data = ['.'] := rfl
  have hdata : (x ++ "." ++ s).data = x.data ++ '.' :: s.data := by
    rw [String.data_append, String.data_append, hdot, List.append_assoc]
    rfl
  have href : refValue reg (String.mk x.data) (String.mk s.data) =
      .error (.solutionNotFound s) := by
    show refValue reg x s = _
    rw [refValue, hreg]
  rcases hc : x.data with _ | ⟨c, rest⟩
  · rw [identName, hc] at hx; cases hx
  · have hcons : x.data ++ '.' :: s.data = c :: (rest ++ '.' :: s.data) := by
      rw [hc]; rfl
    have hmatch := matchRefAt_ref hx hs
    rw [hcons] at hmatch
    have hres : resolve_variable_references (x ++ "." ++ s) reg =
        .error (.solutionNotFound s) := by
      rw [resolve_variable_references, hdata, hcons]
      rw [resolveRefsAux, hmatch]
      simp [href, Except.map, Bind.bind, Except.bind]
    rw [evaluate_formula, hres]

/-! Character-class lemmas and the name-validator characterization. -/

theorem contains_eq_false_of {α : Type} [BEq α] [LawfulBEq α] {l : List α}
    {x : α} (h : ∀ a ∈ l, a ≠ x) : l.contains x = false := by
  induction l with
  | nil => rfl
  | cons a rest ih =>
      rw [List.contains_cons]
      have hx : (x == a) = false :=
        beq_eq_false_iff_ne.mpr (fun hc => (h a (List.mem_cons_self _ _)) hc.symm)
      rw [hx, ih (fun b hb => h b (List.mem_cons_of_mem _ hb))]
      rfl

theorem alnum_word {c : Char} (h : (isAsciiLetter c || isDigitChar c) = true) :
    isWordChar c = true := by
  rw [isWordChar, h]
  rfl

theorem alnum_ne_at {c : Char} (h : (isAsciiLetter c || isDigitChar c) = true) :
    c ≠ '@' := by
  intro hc; subst hc; exact absurd h (by decide)

theorem alnum_ne_dot {c : Char} (h : (isAsciiLetter c || isDigitChar c) = true) :
    c ≠ '.' := by
  intro hc; subst hc; exact absurd h (by decide)

theorem word_ne_at {c : Char} (h : isWordChar c = true) : c ≠ '@' := by
  intro hc; subst hc; exact absurd h (by decide)

theorem word_ne_dot {c : Char} (h : isWordChar c = true) : c ≠ '.' := by
  intro hc; subst hc; exact absurd h (by decide)

theorem pyDollarWordTail_iff (cs : List Char) :
    pyDollarWordTail cs = true ↔
      (cs.all isWordChar = true ∨
        (cs.getLast? = some '\n' ∧ cs.dropLast.all isWordChar = true)) := by
  induction cs with
  | nil => simp [pyDollarWordTail]
  | cons c rest ih =>
      cases rest with
      | nil =>
          by_cases h : c = '\n'
          · subst h; decide
          · simp [pyDollarWordTail, h]
      | cons d rest' =>
          have harm : pyDollarWordTail (c :: d :: rest') =
              (isWordChar c && pyDollarWordTail (d :: rest')) := rfl
          rw [harm]
          rw [Bool.and_eq_true, ih]
          rw [List.getLast?_cons_cons, List.dropLast_cons₂]
          simp only [List.all_cons, Bool.and_eq_true]
          tauto

theorem pyDollarWordTail_no_forbidden {rest : List Char}
    (h : pyDollarWordTail rest = true) :
    rest.contains '@' = false ∧ rest.contains '.' = false := by
  induction rest with
  | nil => exact ⟨rfl, rfl⟩
  | cons d rest' ih =>
      cases rest' with
      | nil =>
          have h2 : (d = '\n' || isWordChar d) = true := h
          rw [Bool.or_eq_true, decide_eq_true_eq] at h2
          rcases h2 with h2 | h2
          · subst h2; exact ⟨rfl, rfl⟩
          · constructor
            · rw [List.contains_cons,
                beq_eq_false_iff_ne.mpr (Ne.symm (word_ne_at h2))]
              rfl
            · rw [List.contains_cons,
                beq_eq_false_iff_ne.mpr (Ne.symm (word_ne_dot h2))]
              rfl
      | cons e rest'' =>
          have h2 : (isWordChar d && pyDollarWordTail (e :: rest'')) = true := h
          rw [Bool.and_eq_true] at h2
          obtain ⟨hd, ht⟩ := h2
          obtain ⟨iha, ihd⟩ := ih ht
          constructor
          · rw [List.contains_cons,
              beq_eq_false_iff_ne.mpr (Ne.symm (word_ne_at hd)), iha]
            rfl
          · rw [List.contains_cons,
              beq_eq_false_iff_ne.mpr (Ne.symm (word_ne_dot hd)), ihd]
            rfl

theorem validateChars_cons (c : Char) (rest : List Char) :
    validateChars (c :: rest) = true ↔
      ((isAsciiLetter c || isDigitChar c) = true ∧
        pyDollarWordTail rest = true) := by
  constructor
  · intro h
    rw [validateChars] at h
    by_cases ha : (isAsciiLetter c || isDigitChar c) = true
    · refine ⟨ha, ?_⟩
      rw [ha] at h
      simp only [Bool.not_true, Bool.false_eq_true, if_false, ite_false] at h
      by_cases hc : ((c :: rest).contains '@' || (c :: rest).contains '.') = true
      · rw [if_pos hc] at h; cases h
      · rw [if_neg hc] at h
        have : (isWordChar c && pyDollarWordTail rest) = true := h
        rw [Bool.and_eq_true] at this
        exact this.2
    · rw [Bool.eq_false_iff.mpr ha] at h
      simp at h
  · rintro ⟨ha, ht⟩
    rw [validateChars, ha]
    simp only [Bool.not_true, Bool.false_eq_true, if_false, ite_false]
    have h1 : (c :: rest).contains '@' = false := by
      rw [List.contains_cons,
        beq_eq_false_iff_ne.mpr (Ne.symm (alnum_ne_at ha)),
        (pyDollarWordTail_no_forbidden ht).1]
      rfl
    have h2 : (c :: rest).contains '.' = false := by
      rw [List.contains_cons,
        beq_eq_false_iff_ne.mpr (Ne.symm (alnum_ne_dot ha)),
        (pyDollarWordTail_no_forbidden ht).2]
      rfl
    rw [h1, h2]
    simp only [Bool.or_self, Bool.false_eq_true, if_false, ite_false]
    show (isWordChar c && pyDollarWordTail rest) = true
    rw [alnum_word ha, ht]
    rfl

theorem validateChars_iff (cs : List Char) :
    validateChars cs = true ↔
      (claimedChars cs = true ∨
        (cs.getLast? = some '\n' ∧ claimedChars cs.dropLast = true)) := by
  cases cs with
  | nil => simp [validateChars, claimedChars]
  | cons c rest =>
      rw [validateChars_cons, pyDollarWordTail_iff]
      cases rest with
      | nil =>
          constructor
          · rintro ⟨ha, hall | ⟨hl, hd⟩⟩
            · left
              show ((isAsciiLetter c || isDigitChar c) && [].all isWordChar) = true
              rw [ha]; rfl
            · simp at hl
          · rintro (hc | ⟨hl, hd⟩)
            · have : ((isAsciiLetter c || isDigitChar c) && [].all isWordChar) = true := hc
              rw [Bool.and_eq_true] at this
              exact ⟨this.1, Or.inl rfl⟩
            · simp [claimedChars] at hd
      | cons d rest' =>
          constructor
          · rintro ⟨ha, hall | ⟨hl, hd⟩⟩
            · left
              show ((isAsciiLetter c || isDigitChar c) && (d :: rest').all isWordChar) = true
              rw [ha, hall]; rfl
            · right
              rw [List.getLast?_cons_cons]
              refine ⟨hl, ?_⟩
              rw [List.dropLast_cons₂]
              show ((isAsciiLetter c || isDigitChar c) && ((d :: rest').dropLast).all isWordChar) = true
              rw [ha, hd]; rfl
          · rintro (hc | ⟨hl, hd⟩)
            · have : ((isAsciiLetter c || isDigitChar c) && (d :: rest').all isWordChar) = true := hc
              rw [Bool.and_eq_true] at this
              exact ⟨this.1, Or.inl this.2⟩
            · rw [List.getLast?_cons_cons] at hl
              rw [List.dropLast_cons₂] at hd
              have : ((isAsciiLetter c || isDigitChar c) && ((d :: rest').dropLast).all isWordChar) = true := hd
              rw [Bool.and_eq_true] at this
              exact ⟨this.1, Or.inr ⟨hl, this.2⟩⟩



theorem wordName_all {t : String} (h : wordName t = true) :
    ∀ c ∈ t.data, isWordChar c = true := by
  rw [wordName, Bool.and_eq_true] at h
  exact List.all_eq_true.mp h.2

theorem wordName_ne_nil {t : String} (h : wordName t = true) : t.data ≠ [] := by
  rw [wordName, Bool.and_eq_true] at h
  intro hc
  rw [hc] at h
  exact absurd h.1 (by decide)

theorem word_ne_hash {c : Char} (h : isWordChar c = true) : c ≠ '#' := by
  intro hc; subst hc; exact absurd h (by decide)

theorem word_not_space {c : Char} (h : isWordChar c = true) :
    isPySpace c = false := by
  cases hsp : isPySpace c
  · rfl
  · exfalso
    have h6 : c = ' ' ∨ c = '\t' ∨ c = '\n' ∨ c = '\r' ∨ c = '\x0b' ∨
        c = '\x0c' := by
      rw [isPySpace] at hsp
      simp only [Bool.or_eq_true, decide_eq_true_eq] at hsp
      tauto
    rcases h6 with rfl | rfl | rfl | rfl | rfl | rfl <;>
      exact absurd h (by decide)

theorem dropWhile_eq_self_of {p : Char → Bool} {cs : List Char}
    (h : ∀ c ∈ cs, p c = false) : cs.dropWhile p = cs := by
  cases cs with
  | nil => rfl
  | cons c rest => simp [List.dropWhile_cons, h c (List.mem_cons_self _ _)]

theorem pyStrip_eq_self {cs : List Char}
    (h : ∀ c ∈ cs, isPySpace c = false) : pyStrip cs = cs := by
  rw [pyStrip, dropWhile_eq_self_of h,
    dropWhile_eq_self_of (fun c hc => h c (List.mem_reverse.mp hc)),
    List.reverse_reverse]

theorem not_mem_of_contains_false {l : List Char} {c : Char}
    (h : l.contains c = false) : c ∉ l := by
  induction l with
  | nil => simp
  | cons a rest ih =>
      rw [List.contains_cons] at h
      intro hm
      rcases List.mem_cons.mp hm with rfl | hmem
      · rw [beq_self_eq_true] at h
        cases h
      · cases hca : rest.contains c
        · exact ih hca hmem
        · rw [hca, Bool.or_true] at h
          cases h

theorem contains_true_of_mem {l : List Char} {c : Char} (h : c ∈ l) :
    l.contains c = true := by
  induction l with
  | nil => cases h
  | cons a rest ih =>
      rw [List.contains_cons]
      rcases List.mem_cons.mp h with rfl | hmem
      · rw [beq_self_eq_true]
        rfl
      · rw [ih hmem, Bool.or_true]

theorem valid_alias_no_at {a : String} (h : is_valid_alias a = true) :
    a.data.contains '@' = false := by
  rw [is_valid_alias, Bool.and_eq_true] at h
  have := h.1
  cases hc : a.data.contains '@'
  · rfl
  · rw [hc] at this; cases this

theorem valid_alias_no_dot {a : String} (h : is_valid_alias a = true) :
    a.data.contains '.' = false := by
  rw [is_valid_alias, Bool.and_eq_true] at h
  have := h.2
  cases hc : a.data.contains '.'
  · rfl
  · rw [hc] at this; cases this

theorem word_contains_false {t : String} (hw : wordName t = true) {sep : Char}
    (hsep : isWordChar sep = false) : t.data.contains sep = false :=
  contains_eq_false_of (fun c hc heq => by
    rw [heq] at hc
    rw [wordName_all hw sep hc] at hsep
    cases hsep)

theorem ne_of_mem_contains {x R : String} {sep : Char} (hmem : sep ∈ R.data)
    (hx : x.data.contains sep = false) : x ≠ R := by
  intro h
  subst h
  exact not_mem_of_contains_false hx hmem

theorem pyIntCore_none_of_dot {ds : List Char} (h : '.' ∈ ds) :
    pyIntCore ds = none := by
  have hall : ds.all isDigitChar = false := by
    cases hall : ds.all isDigitChar
    · rfl
    · exact absurd (List.all_eq_true.mp hall '.' h) (by decide)
  rw [pyIntCore, hall]
  simp

theorem pyIntParse_none_of_dot {cs : List Char} (h : '.' ∈ cs) :
    pyIntParse cs = none := by
  rw [pyIntParse.eq_def]
  split
  · next rest =>
      have : '.' ∈ rest := by
        rcases List.mem_cons.mp h with hc | hc
        · cases hc
        · exact hc
      rw [pyIntCore_none_of_dot this]
      rfl
  · next rest =>
      have : '.' ∈ rest := by
        rcases List.mem_cons.mp h with hc | hc
        · cases hc
        · exact hc
      exact pyIntCore_none_of_dot this
  · next => exact pyIntCore_none_of_dot h


theorem v2_get_variable_none (v2s : V2Solution) (R : String) (sep : Char)
    (hmem : sep ∈ R.data)
    (hsepw : isWordChar sep = false)
    (hsepav : sep = '@' ∨ sep = '.')
    (hv2keys : ∀ p ∈ v2s.vars, wordName p.1 = true)
    (hv2alias : ∀ p ∈ v2s.aliases, is_valid_alias p.1 = true) :
    v2s.get_variable R = none := by
  have h1 : lookupA v2s.vars R = none :=
    lookupA_eq_none_of_ne (fun p hp =>
      ne_of_mem_contains hmem (word_contains_false (hv2keys p hp) hsepw))
  have h2 : lookupA v2s.aliases R = none :=
    lookupA_eq_none_of_ne (fun p hp => by
      rcases hsepav with rfl | rfl
      · exact ne_of_mem_contains hmem (valid_alias_no_at (hv2alias p hp))
      · exact ne_of_mem_contains hmem (valid_alias_no_dot (hv2alias p hp)))
  rw [V2Solution.get_variable, h1, h2]

theorem resolver_sep_none (hs : HybridSolution) (v2s : V2Solution)
    (ref nm sol : String) (sep : Char)
    (hrd : ref.data = nm.data ++ sep :: sol.data)
    (hsepav : sep = '@' ∨ sep = '.')
    (hn : wordName nm = true) (hsol : wordName sol = true)
    (hkeys : ∀ p ∈ hs.vars, wordName p.1 = true)
    (hhalias : ∀ p ∈ hs.vars, ∀ a ∈ p.2.aliases, is_valid_alias a = true)
    (hv2keys : ∀ p ∈ v2s.vars, wordName p.1 = true)
    (hv2alias : ∀ p ∈ v2s.aliases, is_valid_alias p.1 = true) :
    hs.get_variable_by_reference v2s ref = none := by
  have hsepw : isWordChar sep = false := by
    rcases hsepav with rfl | rfl <;> decide
  have hsepsp : isPySpace sep = false := by
    rcases hsepav with rfl | rfl <;> decide
  have hnospace : ∀ c ∈ ref.data, isPySpace c = false := by
    rw [hrd]
    intro c hc
    rcases List.mem_append.mp hc with h | h
    · exact word_not_space (wordName_all hn c h)
    · rcases List.mem_cons.mp h with rfl | h
      · exact hsepsp
      · exact word_not_space (wordName_all hsol c h)
  have hstrip : pyStrip ref.data = ref.data := pyStrip_eq_self hnospace
  have hmkd : (String.mk ref.data) = ref := rfl
  have hsepmem : sep ∈ ref.data := by
    rw [hrd]
    exact List.mem_append.mpr (Or.inr (List.mem_cons_self _ _))
  have e1 : lookupA hs.vars ref = none :=
    lookupA_eq_none_of_ne (fun p hp =>
      ne_of_mem_contains hsepmem (word_contains_false (hkeys p hp) hsepw))
  obtain ⟨c0, nmrest, hc0⟩ : ∃ c0 nmrest, nm.data = c0 :: nmrest := by
    rcases hnm : nm.data with _ | ⟨c0, nmrest⟩
    · exact absurd hnm (wordName_ne_nil hn)
    · exact ⟨c0, nmrest, rfl⟩
  have hc0w : isWordChar c0 = true :=
    wordName_all hn c0 (by rw [hc0]; exact List.mem_cons_self _ _)
  have e2 : ref.data.head? = some c0 := by
    rw [hrd, hc0]
    rfl
  have hc0hash : ¬(some c0 = some '#') := by
    intro hcc
    exact word_ne_hash hc0w (Option.some.injEq _ _ ▸ hcc)
  have e3 : v2s.get_variable ref = none :=
    v2_get_variable_none v2s ref sep hsepmem hsepw hsepav hv2keys hv2alias
  have e4 : hs.vars.find? (fun p => p.2.aliases.contains ref) = none := by
    rw [List.find?_eq_none]
    intro p hp hc
    have : ∀ a ∈ p.2.aliases, a ≠ ref := fun a ha => by
      rcases hsepav with rfl | rfl
      · exact ne_of_mem_contains hsepmem (valid_alias_no_at (hhalias p hp a ha))
      · exact ne_of_mem_contains hsepmem (valid_alias_no_dot (hhalias p hp a ha))
    rw [contains_eq_false_of this] at hc
    cases hc
  rw [HybridSolution.get_variable_by_reference]
  simp only [hstrip, hmkd, e1, e2, e3, e4, hc0hash, Option.some.injEq,
    if_false, ite_false, decide_eq_true_eq, Bool.and_eq_true, and_false,
    false_and, if_neg, reduceCtorEq]
  rfl



theorem digit_word {c : Char} (h : isDigitChar c = true) :
    isWordChar c = true := by
  rw [isWordChar, h]
  simp

theorem resolver_legacy_full (hs : HybridSolution) (v2s : V2Solution)
    (hv : HybridVariable) (ref : String)
    (hrd : ref.data =
      '#' :: ((toString hv.variable_id).data ++ '.' :: hv.name.data))
    (hmem : (hv.name, hv) ∈ hs.vars)
    (hword : wordName hv.name = true)
    (hkeys : ∀ p ∈ hs.vars, wordName p.1 = true)
    (hdig : ∀ c ∈ (toString hv.variable_id).data, isDigitChar c = true)
    (hparse : pyIntParse (toString hv.variable_id).data =
      some (hv.variable_id : ℤ))
    (huniq : ∀ p ∈ hs.vars, p.2.variable_id = hv.variable_id → p.2 = hv) :
    hs.get_variable_by_reference v2s ref = some hv := by
  have hnospace : ∀ c ∈ ref.data, isPySpace c = false := by
    rw [hrd]
    intro c hc
    rcases List.mem_cons.mp hc with rfl | hc
    · decide
    · rcases List.mem_append.mp hc with h | h
      · exact word_not_space (digit_word (hdig c h))
      · rcases List.mem_cons.mp h with rfl | h
        · decide
        · exact word_not_space (wordName_all hword c h)
  have hstrip : pyStrip ref.data = ref.data := pyStrip_eq_self hnospace
  have hmkd : (String.mk ref.data) = ref := rfl
  have hhashmem : '#' ∈ ref.data := by
    rw [hrd]
    exact List.mem_cons_self _ _
  have e1 : lookupA hs.vars ref = none :=
    lookupA_eq_none_of_ne (fun p hp =>
      ne_of_mem_contains hhashmem
        (word_contains_false (hkeys p hp) (by decide)))
  have e2 : ref.data.head? = some '#' := by rw [hrd]; rfl
  have e3 : pyIntParse (ref.data.drop 1) = none := by
    rw [hrd]
    exact pyIntParse_none_of_dot
      (List.mem_append.mpr (Or.inr (List.mem_cons_self _ _)))
  have e4 : ref.data.contains '.' = true :=
    contains_true_of_mem (by
      rw [hrd]
      exact List.mem_cons_of_mem _
        (List.mem_append.mpr (Or.inr (List.mem_cons_self _ _))))
  have e5 : (ref.data.takeWhile (fun c => decide (c ≠ '.'))).drop 1 =
      (toString hv.variable_id).data := by
    rw [hrd, List.takeWhile_cons]
    have hhash : (decide ('#' ≠ '.')) = true := by decide
    rw [hhash]
    have htw : ((toString hv.variable_id).data ++
        '.' :: hv.name.data).takeWhile (fun c => decide (c ≠ '.')) =
        (toString hv.variable_id).data :=
      takeWhile_append_sat
        (fun c hc => decide_eq_true (fun hcc => by
          rw [hcc] at hc
          exact absurd (hdig '.' hc) (by decide)))
        (fun c hc => by
          rw [List.head?_cons, Option.some.injEq] at hc
          rw [← hc]
          decide)
    simp only [if_true, ite_true, htw]
    rfl
  have e6 : pyIntParse ((ref.data.takeWhile (fun c => decide (c ≠ '.'))).drop 1) =
      some (hv.variable_id : ℤ) := by rw [e5, hparse]
  have e7 : (hs.vars.find?
        (fun p => decide ((p.2.variable_id : ℤ) = (hv.variable_id : ℤ)))).map
        (fun p => p.2) = some hv := by
    apply find?_map_snd_eq
    · exact ⟨(hv.name, hv), hmem, by simp⟩
    · intro p hp hpred
      have h1 : (p.2.variable_id : ℤ) = (hv.variable_id : ℤ) :=
        of_decide_eq_true hpred
      exact huniq p hp (Nat.cast_inj.mp h1)
  rw [HybridSolution.get_variable_by_reference]
  simp only [hstrip, hmkd, e1, e2, e3, e4, e6, e7, Option.some.injEq,
    decide_eq_true_eq, Bool.and_eq_true, if_true, ite_true]
  simp [e7]

/-!
### C3 — the three address forms
-/

/-- **C3, counterexample.**  For the variable `length` created in hybrid
solution `panel`, the resolver returns nothing for the write id
`length@panel` and for the read id `length.panel`; only the legacy full id
`#1.length` resolves to the variable — refuting the claim that all three
address forms round-trip. -/
theorem C3_addressing_counterexample :
    hvName (c3hs.get_variable_by_reference c3v2s c3var.new_write_id) = none ∧
    hvName (c3hs.get_variable_by_reference c3v2s c3var.new_read_id) = none ∧
    hvName (c3hs.get_variable_by_reference c3v2s c3var.legacy_full_id) =
      some "length" := by decide

/-- **C3, amended.**  In any well-formed hybrid solution (word-character
variable names and keys, `@`/`.`-free aliases, unique legacy ids), the
legacy full id `#<id>.<name>` of a stored variable resolves back to that
variable, while its write id `<name>@<solution>` and read id
`<name>.<solution>` resolve to nothing: `get_variable_by_reference` has no
branch for the two new address forms. -/
theorem C3_dual_addressing (hs : HybridSolution) (v2s : V2Solution) (hv : HybridVariable)
    (hmem : (hv.name, hv) ∈ hs.vars)
    (hword : wordName hv.name = true)
    (hwordsol : wordName hv.solution_name = true)
    (hkeys : ∀ p ∈ hs.vars, wordName p.1 = true)
    (hhalias : ∀ p ∈ hs.vars, ∀ a ∈ p.2.aliases, is_valid_alias a = true)
    (hv2keys : ∀ p ∈ v2s.vars, wordName p.1 = true)
    (hv2alias : ∀ p ∈ v2s.aliases, is_valid_alias p.1 = true)
    (hdig : ∀ c ∈ (toString hv.variable_id).data, isDigitChar c = true)
    (hparse : pyIntParse (toString hv.variable_id).data =
      some (hv.variable_id : ℤ))
    (huniq : ∀ p ∈ hs.vars, p.2.variable_id = hv.variable_id → p.2 = hv) :
    hs.get_variable_by_reference v2s hv.new_write_id = none ∧
    hs.get_variable_by_reference v2s hv.new_read_id = none ∧
    hs.get_variable_by_reference v2s hv.legacy_full_id = some hv := by
  refine ⟨?_, ?_, ?_⟩
  · refine resolver_sep_none hs v2s _ hv.name hv.solution_name '@' ?_
      (Or.inl rfl) hword hwordsol hkeys hhalias hv2keys hv2alias
    rw [HybridVariable.new_write_id, String.data_append, String.data_append,
      show ("@" : String).data = ['@'] from rfl, List.append_assoc]
    rfl
  · refine resolver_sep_none hs v2s _ hv.name hv.solution_name '.' ?_
      (Or.inr rfl) hword hwordsol hkeys hhalias hv2keys hv2alias
    rw [HybridVariable.new_read_id, String.data_append, String.data_append,
      show ("." : String).data = ['.'] from rfl, List.append_assoc]
    rfl
  · refine resolver_legacy_full hs v2s hv _ ?_ hmem hword hkeys hdig hparse huniq
    rw [HybridVariable.legacy_full_id, String.data_append, String.data_append,
      String.data_append, show ("#" : String).data = ['#'] from rfl,
      show ("." : String).data = ['.'] from rfl, List.append_assoc,
      List.append_assoc]
    rfl

theorem C3_dual_addressing_witness :
    c3hs.get_variable_by_reference c3v2s c3var.new_write_id = none ∧
    c3hs.get_variable_by_reference c3v2s c3var.new_read_id = none ∧
    c3hs.get_variable_by_reference c3v2s c3var.legacy_full_id = some c3var :=
  C3_dual_addressing c3hs c3v2s c3var (by decide) (by decide) (by decide) (by decide)
    (by decide) (by decide) (by decide) (by decide) (by decide) (by decide)

/-!
### C9 — the name validator
-/

/-- **C9, counterexample.**  Python's `$` anchor also matches just before a
single trailing newline, so `validate_name "a\n"` returns `true` although
`"a\n"` is not in the claimed language `^[A-Za-z0-9][A-Za-z0-9_]*$`. -/
theorem C9_trailing_newline_counterexample :
    validate_name "a\n" = true ∧ claimedNameLang "a\n" = false := by decide

/-- **C9, amended.**  The validator accepts exactly the claimed language
`^[A-Za-z0-9][A-Za-z0-9_]*$` OR a word of that language followed by one
trailing newline — the extra case coming from Python `re`'s `$`
semantics inside `re.match(r'^[a-zA-Z0-9_]+$', name)`. -/
theorem C9_validate_name_characterization (s : String) :
    validate_name s = true ↔
      (claimedNameLang s = true ∨
        (s.data.getLast? = some '\n' ∧
          claimedNameLang (String.mk s.data.dropLast) = true)) :=
  validateChars_iff s.data

/-- Witness for C9: both sides of the characterization at concrete
names. -/
theorem C9_validate_name_characterization_witness :
    validate_name "ab_9" = true ∧ claimedNameLang "ab_9" = true :=
  ⟨(C9_validate_name_characterization "ab_9").mpr (Or.inl (by decide)),
   by decide⟩

/-!
### C1 — cycle detection and the commit path
-/

/-- **C1, counterexample.**  In the executed scenario `a@X=1`, `b@Y=a.X`,
`a@X=b.Y`, the third (cyclic) Formula statement is NOT rejected: execution
reports no error, the formula `b.Y` is committed onto `a@X`, and the
Dependency Tracker's stored forward graph afterwards contains the cycle
`a.X → b.Y → a.X`.  This refutes the claim that the write fails before
committing and that the stored graph stays acyclic. -/
theorem C1_cycle_write_commits_counterexample :
    (c1VarA.map (fun v => (v.is_formula, v.formula, v.computation_error))) =
      some (true, some "b.Y", none) ∧
    c1Forward = [("b.Y", ["a.X"]), ("a.X", ["b.Y"])] := by decide

/-- **C1, amended.**  The cyclic write `a@X=b.Y` executes successfully and
is committed, and the resulting stored dependency graph is cyclic; the
cycle IS detectable by the tracker's own explicit check
(`has_circular_dependency "a.X"` returns `true` on the committed graph),
but `execute_v2_expression` never invokes that check, so nothing blocks the
write. -/
theorem C1_cycle_detectable_but_unenforced :
    c1run.isOk = true ∧
    (c1VarA.map (fun v => v.is_formula)) = some true ∧
    c1Detected = true := by decide

/-!
### C2 — `set_formula` failure handling
-/

/-- **C2, counterexample.**  A variable whose formula `x.P` evaluated
successfully to 600 is given a new formula `y.Q` whose immediate evaluation
fails (solution `Q` does not exist): the failure is recorded, but
`last_computed_value` is reset to `0.0` instead of retaining 600, refuting
the retention claim. -/
theorem C2_failed_set_formula_counterexample :
    c2v1.last_computed_value = some (PyQ.ofInt 600) ∧
    c2v1.computation_error = none ∧
    c2v2.computation_error = some (.solutionNotFound "Q") ∧
    c2v2.last_computed_value = some (PyQ.ofInt 0) := by decide

/-- **C2, amended.**  When the immediate evaluation inside `set_formula`
fails, the error is recorded in `computation_error` and
`last_computed_value` is set to `0.0` — unconditionally, discarding any
previously cached successful value.  (Retention of the old cache on failure
is the behaviour of `get_computed_value` re-evaluation, not of
`set_formula`.) -/
theorem C2_failed_set_formula_resets_cache (v : V2Variable) (f : String)
    (reg : Registry) (e : EvalErr)
    (h : evaluate_formula f reg = .error e) :
    (v.set_formula f reg).computation_error = some e ∧
    (v.set_formula f reg).last_computed_value = some (PyQ.ofInt 0) := by
  rw [V2Variable.set_formula]
  rw [h]
  exact ⟨rfl, rfl⟩

/-- Witness for C2: the amended theorem applied to the concrete scenario. -/
theorem C2_failed_set_formula_resets_cache_witness :
    evaluate_formula "y.Q" c2reg = .error (.solutionNotFound "Q") ∧
    (c2v1.set_formula "y.Q" c2reg).computation_error =
      some (.solutionNotFound "Q") ∧
    (c2v1.set_formula "y.Q" c2reg).last_computed_value = some (PyQ.ofInt 0) :=
  ⟨by decide,
   (C2_failed_set_formula_resets_cache c2v1 "y.Q" c2reg
      (.solutionNotFound "Q") (by decide)).1,
   (C2_failed_set_formula_resets_cache c2v1 "y.Q" c2reg
      (.solutionNotFound "Q") (by decide)).2⟩

/-!
### C4 — `execute` dispatch
-/

/-- **C4, counterexample.**  `a=volume.box` is classified as a Read
statement, but executing it — even on a solution in whose registry the
source reference exists — raises `Cannot execute expression type` instead
of performing a one-shot value copy. -/
theorem C4_read_raises_counterexample :
    parse_expression "a=volume.box" = .ok (.read "a" "volume" "box") ∧
    c4sol.execute_expression "a=volume.box" c4reg = .error .cannotExecuteType := by
  decide

/-- **C4, amended.**  `execute` dispatches by classified type: an
Assignment (with a matching solution part) creates or updates the variable
with the literal; an Alias statement with a fresh alias creates the backing
`_alias_<name>` variable and writes the alias table; a Formula statement
executed through the hybrid layer registers the extracted reference set
with the Dependency Tracker keyed by the assigned variable's read id —
provided the assigned name resolves to a hybrid variable.  A Read
statement, however, is not executed: it raises
`Cannot execute expression type`. -/
theorem C4_execute_dispatch :
    (∀ (sol : V2Solution) (reg : Registry) (expr t sv ss : String),
      parse_expression expr = .ok (.read t sv ss) →
      sol.execute_expression expr reg = .error .cannotExecuteType) ∧
    (∀ (sol : V2Solution) (reg : Registry) (expr v : String) (val : PyVal),
      parse_expression expr = .ok (.assignment v sol.name val) →
      ∃ sol' reg', sol.execute_expression expr reg = .ok (sol', reg') ∧
        (lookupA sol'.vars v).map (fun w => (w.valueRaw, w.is_formula)) =
          some (val, false)) ∧
    (∀ (sol : V2Solution) (reg : Registry) (expr a : String) (val : PyVal),
      parse_expression expr = .ok (.aliasStmt a val) →
      lookupA sol.vars a = none → lookupA sol.aliases a = none →
      is_valid_alias a = true →
      ∃ sol' reg', sol.execute_expression expr reg = .ok (sol', reg') ∧
        lookupA sol'.aliases a = some ("_alias_" ++ a) ∧
        (lookupA sol'.vars ("_alias_" ++ a)).map (fun w => w.valueRaw) =
          some val) ∧
    (∀ (st : HybridState) (selfName expr v s f : String)
        (deps : List String) (reg' : Registry) (hs : HybridSolution)
        (v2s : V2Solution) (hvar : HybridVariable),
      parse_expression expr = .ok (.formula v s f deps) →
      lookupA st.hybrids selfName = some hs →
      execOn st.v2reg selfName expr = .ok reg' →
      lookupA reg' selfName = some v2s →
      hs.get_variable_by_reference v2s v = some hvar →
      st.execute_v2_expression selfName expr =
        .ok { st with v2reg := reg',
                      tracker := st.tracker.add_dependency hvar.new_read_id deps }) := by
  refine ⟨?_, ?_, ?_, ?_⟩
  · intro sol reg expr t sv ss h
    rw [V2Solution.execute_expression, h]
  · intro sol reg expr v val h
    simp only [V2Solution.execute_expression, h, ne_eq, not_true_eq_false,
      if_false, ite_false]
    refine ⟨_, _, rfl, ?_⟩
    rw [lookupA_updateA_self]
    simp [V2Variable.setValue]
  · intro sol reg expr a val h hva hal hval
    simp only [V2Solution.execute_expression, h, hva, hal, Option.isNone_none,
      Bool.and_self, if_true, ite_true]
    rw [V2Solution.set_alias, hval]
    rw [lookupA_updateA_self]
    simp only [Option.isNone_some, Bool.false_eq_true, if_false, ite_false]
    refine ⟨_, _, rfl, ?_, ?_⟩
    · exact lookupA_updateA_self _ _ _
    · rw [lookupA_updateA_self]
      simp [V2Variable.setValue]
  · intro st selfName expr v s f deps reg' hs v2s hvar hp hhs hexec hv2s hres
    simp only [HybridState.execute_v2_expression, hhs, hexec, hp, hv2s, hres]

/-- Witness for C4: each dispatch arm applied to a concrete case. -/
theorem C4_execute_dispatch_witness :
    (V2Solution.new "box").execute_expression "a=volume.box" [] =
      .error .cannotExecuteType ∧
    (∃ sol' reg',
      (V2Solution.new "box").execute_expression "length@box=600" [] =
        .ok (sol', reg') ∧
      (lookupA sol'.vars "length").map (fun w => (w.valueRaw, w.is_formula)) =
        some (.int 600, false)) ∧
    (∃ sol' reg',
      (V2Solution.new "box").execute_expression "L=600" [] = .ok (sol', reg') ∧
      lookupA sol'.aliases "L" = some ("_alias_" ++ "L") ∧
      (lookupA sol'.vars ("_alias_" ++ "L")).map (fun w => w.valueRaw) =
        some (.int 600)) :=
  ⟨C4_execute_dispatch.1 (V2Solution.new "box") [] "a=volume.box" "a" "volume"
      "box" (by decide),
   C4_execute_dispatch.2.1 (V2Solution.new "box") [] "length@box=600" "length"
      (.int 600) (by decide),
   C4_execute_dispatch.2.2.1 (V2Solution.new "box") [] "L=600" "L" (.int 600)
      (by decide) (by decide) (by decide) (by decide)⟩

/-!
### C5 — the permitted function set
-/

/-- **C5, counterexample.**  `pow` is one of the fourteen functions the
claim says every formula evaluation makes callable, yet evaluating
`pow(2,3)` through the V2 evaluator fails with a `NameError`-style error:
the V2 function table does not contain `pow`. -/
theorem C5_pow_unavailable_counterexample :
    claimedFunctionNames.contains "pow" = true ∧
    evaluate_formula "pow(2,3)" [] = .error (.nameNotDefined "pow") := by decide

/-- **C5, amended.**  The legacy `math_functions` table contains exactly
the claimed fourteen names, but the V2 evaluator's table is the strict
subset `sin, cos, tan, sqrt, abs, min, max, round`; `^` is rewritten to the
power operator end-to-end, a listed function such as `sqrt` is callable,
and the six missing names (`pow, exp, log, log10, ceil, floor`) fail with a
name-not-defined error in V2 formula evaluation. -/
theorem C5_function_tables :
    mathFunctionNames.toFinset = claimedFunctionNames.toFinset ∧
    v2FunctionNames = ["sin", "cos", "tan", "sqrt", "abs", "min", "max", "round"] ∧
    v2FunctionNames.toFinset ⊂ mathFunctionNames.toFinset ∧
    evaluate_formula "2^3" [] = .ok (PyQ.ofInt 8) ∧
    evaluate_formula "sqrt(4)" [] = .ok (PyQ.ofInt 2) ∧
    evaluate_formula "exp(1)" [] = .error (.nameNotDefined "exp") ∧
    evaluate_formula "log10(100)" [] = .error (.nameNotDefined "log10") ∧
    evaluate_formula "ceil(1)" [] = .error (.nameNotDefined "ceil") ∧
    evaluate_formula "floor(1)" [] = .error (.nameNotDefined "floor") ∧
    evaluate_formula "log(1)" [] = .error (.nameNotDefined "log") := by decide

/-!
### C6 — `set_alias` validation
-/

/-- **C6, counterexample.**  `set_alias` performs no collision check:
setting alias `a` when a variable named `a` exists succeeds and writes the
table, and setting alias `c` when alias `c` already exists succeeds and
overwrites it — refuting the claimed collision failure. -/
theorem C6_alias_collision_counterexample :
    (lookupA c6sol.vars "a").isSome = true ∧
    ((c6sol.set_alias "a" "b").map (fun s => s.aliases)) = .ok [("a", "b")] ∧
    lookupA c6solAliased.aliases "c" = some "a" ∧
    ((c6solAliased.set_alias "c" "b").map (fun s => s.aliases)) =
      .ok [("c", "b")] := by decide

/-- **C6, amended.**  `set_alias` fails on an alias containing `@` or `.`
and on a missing target variable — both failures raised before any
mutation, so the alias table is unchanged — but it performs no collision
check: whenever the alias is - well-formed and the target exists, the write
succeeds unconditionally, even if the alias equals an existing variable
name or overwrites an existing alias. -/
theorem C6_set_alias_checks (sol : V2Solution) (a v : String) :
    (is_valid_alias a = false → sol.set_alias a v = .error (.invalidAliasName a)) ∧
    (is_valid_alias a = true → lookupA sol.vars v = none →
      sol.set_alias a v = .error (.variableNotFoundAlias v)) ∧
    (is_valid_alias a = true → (lookupA sol.vars v).isSome = true →
      sol.set_alias a v = .ok { sol with aliases := updateA sol.aliases a v }) := by
  refine ⟨?_, ?_, ?_⟩
  · intro h1
    rw [V2Solution.set_alias, h1]
    rfl
  · intro h1 h2
    rw [V2Solution.set_alias, h1, h2]
    rfl
  · intro h1 h2
    rw [V2Solution.set_alias, h1]
    rcases h : lookupA sol.vars v with _ | w
    · simp [h] at h2
    · rfl

/-- Witness for C6: the three checks applied to the concrete solution. -/
theorem C6_set_alias_checks_witness :
    c6sol.set_alias "x.y" "b" = .error (.invalidAliasName "x.y") ∧
    c6sol.set_alias "c" "zzz" = .error (.variableNotFoundAlias "zzz") ∧
    c6sol.set_alias "a" "b" =
      .ok { c6sol with aliases := updateA c6sol.aliases "a" "b" } :=
  ⟨(C6_set_alias_checks c6sol "x.y" "b").1 (by decide),
   (C6_set_alias_checks c6sol "c" "zzz").2.1 (by decide) (by decide),
   (C6_set_alias_checks c6sol "a" "b").2.2 (by decide) (by decide)⟩

/-!
### C7 — failed re-evaluation preserves the cache
-/

/-- **C7.**  A formula that references a solution missing from the registry
snapshot evaluates to an unknown-solution reference error; and for every
formula variable with a cached value, a re-evaluation that fails with such
an error records the error on the variable, leaves the cached
`last_computed_value` untouched, returns the old value, and a subsequent
registry-less read still returns the old value. -/
theorem C7_unknown_solution_preserves_cache :
    (∀ (x s : String) (reg : Registry), identName x = true →
      identName s = true → lookupA reg s = none →
      evaluate_formula (x ++ "." ++ s) reg = .error (.solutionNotFound s)) ∧
    (∀ (v : V2Variable) (reg : Registry) (f s : String) (q : PyQ),
      v.is_formula = true → v.formula = some f →
      v.last_computed_value = some q →
      evaluate_formula f reg = .error (.solutionNotFound s) →
      v.get_computed_value (some reg) =
        ({ v with computation_error := some (.solutionNotFound s) }, .float q) ∧
      ({ v with computation_error := some (.solutionNotFound s) } :
          V2Variable).get_computed_value none =
        ({ v with computation_error := some (.solutionNotFound s) }, .float q)) := by
  constructor
  · exact refEval_unknown_solution
  · intro v reg f s q hf hform hq he
    constructor
    · rw [V2Variable.get_computed_value]
      rw [hf]
      simp [hform, he, hq]
    · rw [V2Variable.get_computed_value]
      simp [hf, hq]

/-- Witness for C7: the concrete variable cached at 600 re-evaluated
against a snapshot missing solution `T`. -/
theorem C7_unknown_solution_preserves_cache_witness :
    evaluate_formula ("x" ++ "." ++ "T") c7broken =
      .error (.solutionNotFound "T") ∧
    c7var.get_computed_value (some c7broken) =
      ({ c7var with computation_error := some (.solutionNotFound "T") },
        .float (PyQ.ofInt 600)) :=
  ⟨(C7_unknown_solution_preserves_cache).1 "x" "T" c7broken (by decide)
      (by decide) (by decide),
   ((C7_unknown_solution_preserves_cache).2 c7var c7broken "x.T" "T"
      (PyQ.ofInt 600) (by decide) (by decide) (by decide) (by decide)).1⟩

/-!
### C8 — the panel/edge example scenario
-/

/-- **C8.**  With `panel.length=600`, `panel.width=400`,
`panel.thickness=18` and `edge.thickness=2`, executing
`width@result=width.panel - 2*thickness.edge` yields `result.width = 396`;
and after `panel`'s length changes to 800, re-reading `result.length`
(defined by the formula `length.panel`) with the fresh registry snapshot
yields 800. -/
theorem C8_panel_edge_scenario :
    c8widthVal = some (.float (PyQ.ofInt 396)) ∧
    c8lengthRead = some (.float (PyQ.ofInt 800)) := by decide

/-!
### C10 — cross-solution writes are rejected
-/

/-- **C10.**  Executing an Assignment or Formula statement whose `@`
solution part differs from the executing solution's name fails with the
cross-solution error; in this model the error return happens before any
variable is created or modified, exactly as the source raises before its
first mutation. -/
theorem C10_cross_solution_write_rejected (sol : V2Solution) (reg : Registry)
    (expr : String) (p : ParsedStmt) (s : String)
    (hp : parse_expression expr = .ok p)
    (ht : p.writeTarget = some s)
    (hne : s ≠ sol.name) :
    sol.execute_expression expr reg = .error (.crossSolution s) := by
  cases p with
  | assignment v s' val =>
      have hs : s' = s := by simpa [ParsedStmt.writeTarget] using ht
      subst hs
      rw [V2Solution.execute_expression, hp]
      simp [hne]
  | formula v s' f deps =>
      have hs : s' = s := by simpa [ParsedStmt.writeTarget] using ht
      subst hs
      rw [V2Solution.execute_expression, hp]
      simp [hne]
  | read t sv ss => simp [ParsedStmt.writeTarget] at ht
  | aliasStmt a val => simp [ParsedStmt.writeTarget] at ht

/-- Witness for C10: a concrete cross-solution write is rejected. -/
theorem C10_cross_solution_write_rejected_witness :
    parse_expression "a@other=5" = .ok (.assignment "a" "other" (.int 5)) ∧
    (ParsedStmt.assignment "a" "other" (.int 5)).writeTarget = some "other" ∧
    "other" ≠ (V2Solution.new "mine").name ∧
    (V2Solution.new "mine").execute_expression "a@other=5" [] =
      .error (.crossSolution "other") :=
  ⟨by decide, by decide, by decide,
   C10_cross_solution_write_rejected (V2Solution.new "mine") [] "a@other=5"
     (.assignment "a" "other" (.int 5)) "other" (by decide) (by decide)
     (by decide)⟩

end VisualSolving




